import Mathlib

/-!
# Verification of the KoolAIChess_Version2 bitboard chess core

Shallow embedding of the wake engine (wake_core.py, wake_attacks.py,
wake_board.py, wake_position.py, wake_fen.py, run.py) in Lean 4.

Conventions:
* a Python `np.uint64` bitboard is a `Nat` kept below `2 ^ 64`; wrapping
  operations mask with `mask64` exactly where numpy wraps;
* Python functions that can fail to return normally (raise, `quit()`, or
  loop forever) are embedded with `Option`, `none` marking the
  non-returning outcome;
* the modules `wake_rays.py` and `wake_constants.py` are imported by the
  sources but are not part of the source tree; the definitions taken from
  them are marked `Modelled from the spec:` in their doc comments.
-/

set_option maxRecDepth 10000
set_option linter.unnecessarySeqFocus false

namespace Wake

-- =====================================================================
-- Definitions
-- =====================================================================

/-- All 64 bits set: the mask numpy applies to `np.uint64` results. -/
def mask64 : Nat := 2 ^ 64 - 1

/-- Bitwise complement of a 64-bit bitboard (`~x` on `np.uint64`). -/
def nnot (x : Nat) : Nat := x ^^^ mask64

/-- `set_bit` from wake_core.py: turn bit `bit` on. -/
def set_bit (bitboard : Nat) (bit : Nat) : Nat := bitboard ||| (1 <<< bit)

/-- `clear_bit` from wake_core.py: turn bit `bit` off. -/
def clear_bit (bitboard : Nat) (bit : Nat) : Nat := bitboard &&& nnot (1 <<< bit)

/-- `get_squares_from_bitboard` from wake_core.py: indices of the set bits,
in ascending order (the Python loop scans bits upward from 0). -/
def get_squares_from_bitboard (bitboard : Nat) : List Nat :=
  (List.range 64).filter (fun i => bitboard.testBit i)

/-- Number of elements of a square-set held as a bitboard (`len` of the
corresponding Python set). -/
def popCount64 (bb : Nat) : Nat := (get_squares_from_bitboard bb).length

/-- The scanning loop of `bitscan_forward` from wake_core.py.  The Python
loop starts at `i = 1` and runs `while not (bitboard >> i) % 2: i += 1`;
it never examines bit 0, and if no bit in `1..63` is set it shifts by 64
and beyond, which is undefined for `np.uint64` — embedded as `none`. -/
def bitscan_forward_loop (bitboard : Nat) : Nat → Nat → Option Nat
  | 0, _ => none
  | fuel + 1, i =>
    if (bitboard >>> i) % 2 = 1 then some i
    else bitscan_forward_loop bitboard fuel (i + 1)

/-- `bitscan_forward` from wake_core.py. -/
def bitscan_forward (bitboard : Nat) : Option Nat :=
  bitscan_forward_loop bitboard 63 1

/-- The inner `lookup_most_significant_1_bit` of `bitscan_reverse`
(wake_core.py). -/
def lookup_most_significant_1_bit (bit : Nat) : Nat :=
  if bit > 127 then 7
  else if bit > 63 then 6
  else if bit > 31 then 5
  else if bit > 15 then 4
  else if bit > 7 then 3
  else if bit > 3 then 2
  else if bit > 1 then 1
  else 0

/-- `bitscan_reverse` from wake_core.py.  On the zero bitboard the Python
code raises `CustomException` — embedded as `none`.  The three guarded
shifts of the source are written as paired `let`s for `bitboard`/`result`. -/
def bitscan_reverse (bitboard : Nat) : Option Nat :=
  if bitboard = 0 then none
  else
    let b1 := if bitboard > 0xFFFFFFFF then bitboard >>> 32 else bitboard
    let r1 := if bitboard > 0xFFFFFFFF then 32 else 0
    let b2 := if b1 > 0xFFFF then b1 >>> 16 else b1
    let r2 := if b1 > 0xFFFF then r1 + 16 else r1
    let b3 := if b2 > 0xFF then b2 >>> 8 else b2
    let r3 := if b2 > 0xFF then r2 + 8 else r2
    some (r3 + lookup_most_significant_1_bit b3)

-- ---------------------------------------------------------------------
-- Rays.
--
-- Modelled from the spec: `wake_rays.py` is imported by the sources but is
-- absent from the source tree.  Per the spec, "Ray: squares a sliding piece
-- could reach in one direction on an empty board", and the blocker logic
-- requires that a ray excludes its source square (the source square is
-- occupied by the slider itself, and the spec says "The blocker's own
-- square remains reachable").  Each direction is a `next`-square step
-- repeated until the board edge.
-- ---------------------------------------------------------------------

/-- Repeated application of a partial step function. -/
def iterStep (next : Nat → Option Nat) : Nat → Nat → Option Nat
  | 0, s => some s
  | k + 1, s => (next s).bind (iterStep next k)

/-- Squares of a ray: `next` applied once, twice, ... until it fails.
The fuel 64 never truncates for a step function on squares 0–63. -/
def rayListAux (next : Nat → Option Nat) : Nat → Nat → List Nat
  | 0, _ => []
  | fuel + 1, s =>
    match next s with
    | none => []
    | some t => t :: rayListAux next fuel t

def rayList (next : Nat → Option Nat) (s : Nat) : List Nat :=
  rayListAux next 64 s

/-- Bitboard of a list of squares. -/
def bbOf (l : List Nat) : Nat := l.foldr (fun i acc => acc ||| (1 <<< i)) 0

/-- A forward step function strictly increases the square. -/
def StepMono (next : Nat → Option Nat) : Prop :=
  ∀ s t, next s = some t → s < t

/-- Step values stay on the board. -/
def StepBound (next : Nat → Option Nat) : Prop :=
  ∀ s t, next s = some t → t ≤ 63

-- The eight direction step functions (squares 0 = a1 .. 63 = h8; +1 east,
-- +8 north; file of `s` is `s % 8`).

def stepNorth (s : Nat) : Option Nat :=
  if s + 8 ≤ 63 then some (s + 8) else none

def stepSouth (s : Nat) : Option Nat :=
  if 8 ≤ s then some (s - 8) else none

def stepEast (s : Nat) : Option Nat :=
  if s % 8 < 7 ∧ s + 1 ≤ 63 then some (s + 1) else none

def stepWest (s : Nat) : Option Nat :=
  if 0 < s % 8 then some (s - 1) else none

def stepNortheast (s : Nat) : Option Nat :=
  if s % 8 < 7 ∧ s + 9 ≤ 63 then some (s + 9) else none

def stepNorthwest (s : Nat) : Option Nat :=
  if 0 < s % 8 ∧ s + 7 ≤ 63 then some (s + 7) else none

def stepSoutheast (s : Nat) : Option Nat :=
  if s % 8 < 7 ∧ 8 ≤ s then some (s - 7) else none

def stepSouthwest (s : Nat) : Option Nat :=
  if 0 < s % 8 ∧ 8 ≤ s then some (s - 9) else none

def northBB (s : Nat) : Nat := bbOf (rayList stepNorth s)

def southBB (s : Nat) : Nat := bbOf (rayList stepSouth s)

def eastBB (s : Nat) : Nat := bbOf (rayList stepEast s)

def westBB (s : Nat) : Nat := bbOf (rayList stepWest s)

def northeastBB (s : Nat) : Nat := bbOf (rayList stepNortheast s)

def northwestBB (s : Nat) : Nat := bbOf (rayList stepNorthwest s)

def southeastBB (s : Nat) : Nat := bbOf (rayList stepSoutheast s)

def southwestBB (s : Nat) : Nat := bbOf (rayList stepSouthwest s)

/-- Modelled from the spec: `get_north_ray` of the absent `wake_rays.py`;
ORs the open-board ray from `square` (source square excluded) into the
accumulator bitboard. -/
def get_north_ray (bitboard square : Nat) : Nat := bitboard ||| northBB square

/-- Modelled from the spec: `get_south_ray` of the absent `wake_rays.py`. -/
def get_south_ray (bitboard square : Nat) : Nat := bitboard ||| southBB square

/-- Modelled from the spec: `get_east_ray` of the absent `wake_rays.py`. -/
def get_east_ray (bitboard square : Nat) : Nat := bitboard ||| eastBB square

/-- Modelled from the spec: `get_west_ray` of the absent `wake_rays.py`. -/
def get_west_ray (bitboard square : Nat) : Nat := bitboard ||| westBB square

/-- Modelled from the spec: `get_northeast_ray` of the absent
`wake_rays.py`. -/
def get_northeast_ray (bitboard square : Nat) : Nat :=
  bitboard ||| northeastBB square

/-- Modelled from the spec: `get_northwest_ray` of the absent
`wake_rays.py`. -/
def get_northwest_ray (bitboard square : Nat) : Nat :=
  bitboard ||| northwestBB square

/-- Modelled from the spec: `get_southeast_ray` of the absent
`wake_rays.py`. -/
def get_southeast_ray (bitboard square : Nat) : Nat :=
  bitboard ||| southeastBB square

/-- Modelled from the spec: `get_southwest_ray` of the absent
`wake_rays.py`. -/
def get_southwest_ray (bitboard square : Nat) : Nat :=
  bitboard ||| southwestBB square

/-- A backward step function strictly decreases the square. -/
def StepAnti (next : Nat → Option Nat) : Prop :=
  ∀ s t, next s = some t → t < s

-- ---------------------------------------------------------------------
-- The per-direction blocker computation of update_legal_rook_moves /
-- update_legal_bishop_moves / update_legal_queen_moves
-- (wake_position.py): intersect the open ray with occupancy, find the
-- nearest blocker with the appropriate bitscan, and XOR away the ray
-- continuation from the blocker.
-- ---------------------------------------------------------------------

/-- XOR the ray continuation from the located blocker; `none` (the bitscan
did not return) leaves the ray as is — that branch is proved unreachable
below. -/
def blockXor (rayFn : Nat → Nat) (ray : Nat) : Option Nat → Nat
  | some first_blocker => ray ^^^ rayFn first_blocker
  | none => ray

/-- One forward direction of the sliding-move computation.  The `none`
branch of `blockXor` is unreachable for rays of board squares (the
intersection never contains bit 0, see `mem_rayList_gt`); on it the Python
`bitscan_forward` would not terminate. -/
def forward_ray_moves (rayFn : Nat → Nat) (occupied s : Nat) : Nat :=
  if occupied &&& rayFn s = 0 then rayFn s
  else blockXor rayFn (rayFn s) (bitscan_forward (occupied &&& rayFn s))

/-- One backward direction of the sliding-move computation.  The `none`
branch is unreachable (`bitscan_reverse` is only `none` on zero). -/
def reverse_ray_moves (rayFn : Nat → Nat) (occupied s : Nat) : Nat :=
  if occupied &&& rayFn s = 0 then rayFn s
  else blockXor rayFn (rayFn s) (bitscan_reverse (occupied &&& rayFn s))

/-- `update_legal_rook_moves` (wake_position.py, pure core): the four
rook rays with blocker truncation, own-piece targets masked out at the
end when nonempty. -/
def update_legal_rook_moves (occupied own_piece_targets move_from_square : Nat) :
    Nat :=
  let north_ray := forward_ray_moves (get_north_ray 0) occupied move_from_square
  let east_ray := forward_ray_moves (get_east_ray 0) occupied move_from_square
  let south_ray := reverse_ray_moves (get_south_ray 0) occupied move_from_square
  let west_ray := reverse_ray_moves (get_west_ray 0) occupied move_from_square
  let legal_moves := north_ray ||| east_ray ||| south_ray ||| west_ray
  if own_piece_targets ≠ 0 then legal_moves &&& nnot own_piece_targets
  else legal_moves

/-- `update_legal_bishop_moves` (wake_position.py, pure core). -/
def update_legal_bishop_moves (occupied own_piece_targets move_from_square : Nat) :
    Nat :=
  let northwest_ray :=
    forward_ray_moves (get_northwest_ray 0) occupied move_from_square
  let northeast_ray :=
    forward_ray_moves (get_northeast_ray 0) occupied move_from_square
  let southwest_ray :=
    reverse_ray_moves (get_southwest_ray 0) occupied move_from_square
  let southeast_ray :=
    reverse_ray_moves (get_southeast_ray 0) occupied move_from_square
  let legal_moves := northwest_ray ||| northeast_ray |||
    southwest_ray ||| southeast_ray
  if own_piece_targets ≠ 0 then legal_moves &&& nnot own_piece_targets
  else legal_moves

/-- A square is pseudo-legally reachable along a forward direction:
it lies on the open-board ray and no nearer ray square is occupied
(so the nearest blocker is reachable and everything beyond is not). -/
def reachableF (next : Nat → Option Nat) (occ s x : Nat) : Prop :=
  x ∈ rayList next s ∧ ∀ y ∈ rayList next s, y < x → occ.testBit y = false

/-- A square is pseudo-legally reachable along a backward direction
(backward rays run toward smaller indices, so "nearer" means larger). -/
def reachableR (next : Nat → Option Nat) (occ s x : Nat) : Prop :=
  x ∈ rayList next s ∧ ∀ y ∈ rayList next s, x < y → occ.testBit y = false

/-- `update_legal_queen_moves` (wake_position.py, pure core): all eight
directions. -/
def update_legal_queen_moves (occupied own_piece_targets move_from_square : Nat) :
    Nat :=
  let north_ray := forward_ray_moves (get_north_ray 0) occupied move_from_square
  let east_ray := forward_ray_moves (get_east_ray 0) occupied move_from_square
  let south_ray := reverse_ray_moves (get_south_ray 0) occupied move_from_square
  let west_ray := reverse_ray_moves (get_west_ray 0) occupied move_from_square
  let northwest_ray :=
    forward_ray_moves (get_northwest_ray 0) occupied move_from_square
  let northeast_ray :=
    forward_ray_moves (get_northeast_ray 0) occupied move_from_square
  let southwest_ray :=
    reverse_ray_moves (get_southwest_ray 0) occupied move_from_square
  let southeast_ray :=
    reverse_ray_moves (get_southeast_ray 0) occupied move_from_square
  let legal_moves := north_ray ||| east_ray ||| south_ray ||| west_ray |||
    northeast_ray ||| southeast_ray ||| southwest_ray ||| northwest_ray
  if own_piece_targets ≠ 0 then legal_moves &&& nnot own_piece_targets
  else legal_moves

-- ---------------------------------------------------------------------
-- The search (run.py, `minimax` / `minimax_root`, the "SECOND ATTEMPT").
--
-- The chess-specific state is abstracted into the move tree the code
-- explores: each child of a node carries the Python
-- `targetvalue + (8 - abs(4 - to_file_number) - abs(4 - to_rank_number))`
-- increment and one of three continuations —
-- `quits`: `wake_makemove` classified the move (illegal / king-in-check /
--   checkmate / stalemate) and the code calls `quit()`;
-- `noMoves`: `all_legal_moves_list` for the opponent comes back empty
--   (the `if not next_moves` branch);
-- `sub t`: the normal case, `t` holding the opponent's reply list.
-- Scores are Python floats restricted to the values the code produces:
-- integers and the two infinities.
-- ---------------------------------------------------------------------

/-- The score values of the search: `float('inf')`, `-float('inf')` and
integers. -/
inductive Score
  | negInf
  | fin (v : Int)
  | posInf
deriving DecidableEq, Repr

/-- Python `<=` on the scores that occur. -/
def Score.ble : Score → Score → Bool
  | negInf, _ => true
  | fin _, posInf => true
  | fin a, fin b => a ≤ b
  | fin _, negInf => false
  | posInf, posInf => true
  | posInf, _ => false

/-- Python `max` (ties keep either operand; the scores are equal then). -/
def smax (a b : Score) : Score := if Score.ble a b then b else a

/-- Python `min`. -/
def smin (a b : Score) : Score := if Score.ble a b then a else b

/-- Adding the per-move integer increment to a recursive score
(`the_score = targetvalue + centralization + minimax(...)`). -/
def addI (v : Int) : Score → Score
  | Score.negInf => Score.negInf
  | Score.fin w => Score.fin (v + w)
  | Score.posInf => Score.posInf

mutual
/-- One candidate move at a node of the explored tree. -/
inductive GChild
  | quits (v : Int)
  | noMoves (v : Int)
  | sub (v : Int) (t : GT)
deriving Repr

/-- A node: the list of moves `valid_moves` handed to `minimax`. -/
inductive GT
  | mk (children : List GChild)
deriving Repr
end

mutual
/-- `minimax` from run.py over the abstracted tree.  `none` is a
non-returning outcome (a `quit()` or the level-overflow raise). -/
def minimaxAB (mL : Nat) (t : GT) (level : Nat) (isMax : Bool)
    (alpha beta : Score) : Option Score :=
  if mL < level + 1 then none
  else if level + 1 = mL then some (Score.fin 0)
  else match t with
    | GT.mk cs =>
      if isMax then goMaxAB mL cs (level + 1) Score.negInf alpha beta
      else goMinAB mL cs (level + 1) Score.posInf alpha beta

/-- The maximizing loop of `minimax` (run.py lines 597-727). -/
def goMaxAB (mL : Nat) (cs : List GChild) (lv : Nat)
    (maxScore alpha beta : Score) : Option Score :=
  match cs with
  | [] => some maxScore
  | GChild.quits _ :: _ => none
  | GChild.noMoves _ :: _ => none
  | GChild.sub v t :: rest =>
    match minimaxAB mL t lv false alpha beta with
    | none => none
    | some r =>
      let s := addI v r
      let m2 := smax maxScore s
      let a2 := smax alpha s
      if Score.ble beta a2 then some m2
      else goMaxAB mL rest lv m2 a2 beta

/-- The minimizing loop of `minimax` (run.py lines 729-833); on an empty
opponent reply list it returns `MINUS_INFINITY` directly. -/
def goMinAB (mL : Nat) (cs : List GChild) (lv : Nat)
    (minScore alpha beta : Score) : Option Score :=
  match cs with
  | [] => some minScore
  | GChild.quits _ :: _ => none
  | GChild.noMoves _ :: _ => some Score.negInf
  | GChild.sub v t :: rest =>
    match minimaxAB mL t lv true alpha beta with
    | none => none
    | some r =>
      let s := addI v r
      let m2 := smin minScore s
      let b2 := smin beta s
      if Score.ble b2 alpha then some m2
      else goMinAB mL rest lv m2 alpha b2
end

mutual
/-- Full minimax over the same tree: `minimaxAB` with the alpha/beta
bookkeeping and the `beta <= alpha` break removed — the comparison
definition the spec describes ("full minimax ... without pruning"). -/
def minimaxFull (mL : Nat) (t : GT) (level : Nat) (isMax : Bool) :
    Option Score :=
  if mL < level + 1 then none
  else if level + 1 = mL then some (Score.fin 0)
  else match t with
    | GT.mk cs =>
      if isMax then goMaxFull mL cs (level + 1) Score.negInf
      else goMinFull mL cs (level + 1) Score.posInf

def goMaxFull (mL : Nat) (cs : List GChild) (lv : Nat) (maxScore : Score) :
    Option Score :=
  match cs with
  | [] => some maxScore
  | GChild.quits _ :: _ => none
  | GChild.noMoves _ :: _ => none
  | GChild.sub v t :: rest =>
    match minimaxFull mL t lv false with
    | none => none
    | some r => goMaxFull mL rest lv (smax maxScore (addI v r))

def goMinFull (mL : Nat) (cs : List GChild) (lv : Nat) (minScore : Score) :
    Option Score :=
  match cs with
  | [] => some minScore
  | GChild.quits _ :: _ => none
  | GChild.noMoves _ :: _ => some Score.negInf
  | GChild.sub v t :: rest =>
    match minimaxFull mL t lv true with
    | none => none
    | some r => goMinFull mL rest lv (smin minScore (addI v r))
end

mutual
/-- Instrumented copy of `minimaxAB` that additionally reports whether a
`beta <= alpha` cutoff fired anywhere during the traversal. -/
def minimaxInstr (mL : Nat) (t : GT) (level : Nat) (isMax : Bool)
    (alpha beta : Score) : Option Score × Bool :=
  if mL < level + 1 then (none, false)
  else if level + 1 = mL then (some (Score.fin 0), false)
  else match t with
    | GT.mk cs =>
      if isMax then goMaxInstr mL cs (level + 1) Score.negInf alpha beta
      else goMinInstr mL cs (level + 1) Score.posInf alpha beta

def goMaxInstr (mL : Nat) (cs : List GChild) (lv : Nat)
    (maxScore alpha beta : Score) : Option Score × Bool :=
  match cs with
  | [] => (some maxScore, false)
  | GChild.quits _ :: _ => (none, false)
  | GChild.noMoves _ :: _ => (none, false)
  | GChild.sub v t :: rest =>
    match minimaxInstr mL t lv false alpha beta with
    | (none, c) => (none, c)
    | (some r, c) =>
      let s := addI v r
      let m2 := smax maxScore s
      let a2 := smax alpha s
      if Score.ble beta a2 then (some m2, true)
      else
        match goMaxInstr mL rest lv m2 a2 beta with
        | (res, c2) => (res, c || c2)

def goMinInstr (mL : Nat) (cs : List GChild) (lv : Nat)
    (minScore alpha beta : Score) : Option Score × Bool :=
  match cs with
  | [] => (some minScore, false)
  | GChild.quits _ :: _ => (none, false)
  | GChild.noMoves _ :: _ => (some Score.negInf, false)
  | GChild.sub v t :: rest =>
    match minimaxInstr mL t lv true alpha beta with
    | (none, c) => (none, c)
    | (some r, c) =>
      let s := addI v r
      let m2 := smin minScore s
      let b2 := smin beta s
      if Score.ble b2 alpha then (some m2, true)
      else
        match goMinInstr mL rest lv m2 alpha b2 with
        | (res, c2) => (res, c || c2)
end

/-- The tree of the C9 counterexample: the root maximizer first sees a
move of value 0 whose reply node scores 5; its second move has value 10
and leads to a minimizer with replies of value 3 and -100. -/
def c9tree : GT :=
  GT.mk [GChild.sub 0 (GT.mk [GChild.sub 5 (GT.mk [])]),
    GChild.sub 10 (GT.mk [GChild.sub 3 (GT.mk []), GChild.sub (-100) (GT.mk [])])]

/-- A cutoff-free tree used as the C9 witness input. -/
def c9treeNoCut : GT := GT.mk [GChild.sub 2 (GT.mk [GChild.sub 1 (GT.mk [])])]

-- ---------------------------------------------------------------------
-- The position model (wake_position.py / wake_board.py / wake_move.py /
-- wake_fen.py).
--
-- Sets of squares (Python `set` objects in `piece_map`) are held as
-- bitboards: `add` is `set_bit`, `remove` is `clear_bit` guarded by a
-- membership test (Python raises `KeyError` on a missing element —
-- embedded as `none`), iteration is in ascending square order.
-- `wake_constants.py` is absent from the source tree; its square / rank /
-- file / castle-route constants are modelled from the spec and from their
-- uses in the sources.
-- ---------------------------------------------------------------------

/-- The two sides (`Rival.PLAYER` is White, `Rival.COMPUTER` Black). -/
inductive Rival
  | player
  | computer
deriving DecidableEq, Repr

/-- `switch_rival` from wake_core.py. -/
def switch_rival : Rival → Rival
  | Rival.player => Rival.computer
  | Rival.computer => Rival.player

/-- The twelve piece type numbers of `wake_constants.Piece`. -/
inductive Piece
  | wP | wR | wN | wB | wQ | wK | bP | bR | bN | bB | bQ | bK
deriving DecidableEq, Repr

/-- `Piece.PLAYER_PIECES` membership. -/
def Piece.isPlayer : Piece → Bool
  | Piece.wP | Piece.wR | Piece.wN | Piece.wB | Piece.wQ | Piece.wK => true
  | _ => false

/-- File and rank constants, modelled from the spec data model
(square = rank * 8 + file, a1 = 0, h8 = 63). -/
def inFileA (s : Nat) : Bool := s % 8 = 0

def inFileH (s : Nat) : Bool := s % 8 = 7

def inFilesAB (s : Nat) : Bool := s % 8 ≤ 1

def inFilesGH (s : Nat) : Bool := 6 ≤ s % 8

def inRank1 (s : Nat) : Bool := s ≤ 7

def inRank2 (s : Nat) : Bool := 8 ≤ s ∧ s ≤ 15

def inRank4 (s : Nat) : Bool := 24 ≤ s ∧ s ≤ 31

def inRank5 (s : Nat) : Bool := 32 ≤ s ∧ s ≤ 39

def inRank7 (s : Nat) : Bool := 48 ≤ s ∧ s ≤ 55

def inRank8 (s : Nat) : Bool := 56 ≤ s ∧ s ≤ 63

/-- `File.HEX_A`: the file-A bitboard. -/
def File_HEX_A : Nat := 0x0101010101010101

def File_HEX_B : Nat := 0x0202020202020202

def File_HEX_G : Nat := 0x4040404040404040

def File_HEX_H : Nat := 0x8080808080808080

-- Square name constants used by the sources (`Square.E1` etc.).
def Square_A1 : Nat := 0

def Square_C1 : Nat := 2

def Square_D1 : Nat := 3

def Square_E1 : Nat := 4

def Square_F1 : Nat := 5

def Square_G1 : Nat := 6

def Square_H1 : Nat := 7

def Square_A8 : Nat := 56

def Square_C8 : Nat := 58

def Square_D8 : Nat := 59

def Square_E8 : Nat := 60

def Square_F8 : Nat := 61

def Square_G8 : Nat := 62

def Square_H8 : Nat := 63

/-- Modelled from the spec: `CastleRoute` masks of the absent
`wake_constants.py` — the squares the king moves through when castling
("can move through the castling squares without being in check"). -/
def CastleRoute_PLAYER_KINGSIDE : Nat := (1 <<< 5) ||| (1 <<< 6)

def CastleRoute_PLAYER_QUEENSIDE : Nat := (1 <<< 2) ||| (1 <<< 3)

def CastleRoute_COMPUTER_KINGSIDE : Nat := (1 <<< 61) ||| (1 <<< 62)

def CastleRoute_COMPUTER_QUEENSIDE : Nat := (1 <<< 58) ||| (1 <<< 59)

-- ---------------------------------------------------------------------
-- Static attack generation (wake_attacks.py)
-- ---------------------------------------------------------------------

/-- `generate_knight_attack_bb_from_square` from wake_attacks.py, with the
file-wrap masking applied inside the offset loop as in the source. -/
def generate_knight_attack_bb_from_square (from_square : Nat) : Nat :=
  [(6 : Int), 15, 17, 10, -6, -15, -17, -10].foldl
    (fun attack_bb i =>
      let to_square : Int := (from_square : Int) + i
      if 0 ≤ to_square ∧ to_square < 64 then
        let bb := attack_bb ||| set_bit attack_bb to_square.toNat
        let bb := if inFilesAB from_square then
            bb &&& nnot (File_HEX_G ||| File_HEX_H) else bb
        let bb := if inFilesGH from_square then
            bb &&& nnot (File_HEX_A ||| File_HEX_B) else bb
        bb
      else attack_bb) 0

/-- `generate_king_attack_bb_from_square` from wake_attacks.py. -/
def generate_king_attack_bb_from_square (from_square : Nat) : Nat :=
  let attack_bb := [(-1 : Int), -7, -8, -9, 1, 7, 8, 9].foldl
    (fun attack_bb i =>
      let to_square : Int := (from_square : Int) + i
      if 0 ≤ to_square ∧ to_square < 64 then
        attack_bb ||| (1 <<< to_square.toNat)
      else attack_bb) 0
  let attack_bb := if inFileA from_square then attack_bb &&& nnot File_HEX_H
    else attack_bb
  if inFileH from_square then attack_bb &&& nnot File_HEX_A else attack_bb

/-- `generate_player_pawn_attack_bb_from_square` from wake_attacks.py. -/
def generate_player_pawn_attack_bb_from_square (from_square : Nat) : Nat :=
  let attack_bb := [(7 : Int), 9].foldl
    (fun attack_bb i =>
      let to_square : Int := (from_square : Int) + i
      if 0 ≤ to_square ∧ to_square < 64 then
        attack_bb ||| (1 <<< to_square.toNat)
      else attack_bb) 0
  let attack_bb := if inFileA from_square then attack_bb &&& nnot File_HEX_H
    else attack_bb
  if inFileH from_square then attack_bb &&& nnot File_HEX_A else attack_bb

/-- `generate_computer_pawn_attack_bb_from_square` from wake_attacks.py. -/
def generate_computer_pawn_attack_bb_from_square (from_square : Nat) : Nat :=
  let attack_bb := [(-7 : Int), -9].foldl
    (fun attack_bb i =>
      let to_square : Int := (from_square : Int) + i
      if 0 ≤ to_square ∧ to_square < 64 then
        attack_bb ||| (1 <<< to_square.toNat)
      else attack_bb) 0
  let attack_bb := if inFileA from_square then attack_bb &&& nnot File_HEX_H
    else attack_bb
  if inFileH from_square then attack_bb &&& nnot File_HEX_A else attack_bb

/-- `generate_player_pawn_motion_bb_from_square` from wake_attacks.py. -/
def generate_player_pawn_motion_bb_from_square (from_square : Nat) : Nat :=
  if 56 ≤ from_square then 0
  else
    let motion_bb : Nat := 1 <<< (from_square + 8)
    if inRank2 from_square then motion_bb ||| (1 <<< (from_square + 16))
    else motion_bb

/-- `generate_computer_pawn_motion_bb_from_square` from wake_attacks.py. -/
def generate_computer_pawn_motion_bb_from_square (from_square : Nat) : Nat :=
  if from_square < 8 then 0
  else
    let motion_bb : Nat := 1 <<< (from_square - 8)
    if inRank7 from_square then motion_bb ||| (1 <<< (from_square - 16))
    else motion_bb

-- ---------------------------------------------------------------------
-- WakeBoard (wake_board.py)
-- ---------------------------------------------------------------------

/-- The twelve per-piece bitboards of `WakeBoard` (the static attack
table dictionaries of the Python class are the generator functions
above, shared by every board). -/
structure WakeBoard where
  player_P_bb : Nat
  player_R_bb : Nat
  player_N_bb : Nat
  player_B_bb : Nat
  player_Q_bb : Nat
  player_K_bb : Nat
  computer_P_bb : Nat
  computer_R_bb : Nat
  computer_N_bb : Nat
  computer_B_bb : Nat
  computer_Q_bb : Nat
  computer_K_bb : Nat
deriving DecidableEq, Repr

def WakeBoard.get (b : WakeBoard) : Piece → Nat
  | Piece.wP => b.player_P_bb
  | Piece.wR => b.player_R_bb
  | Piece.wN => b.player_N_bb
  | Piece.wB => b.player_B_bb
  | Piece.wQ => b.player_Q_bb
  | Piece.wK => b.player_K_bb
  | Piece.bP => b.computer_P_bb
  | Piece.bR => b.computer_R_bb
  | Piece.bN => b.computer_N_bb
  | Piece.bB => b.computer_B_bb
  | Piece.bQ => b.computer_Q_bb
  | Piece.bK => b.computer_K_bb

def WakeBoard.set (b : WakeBoard) : Piece → Nat → WakeBoard
  | Piece.wP, v => { b with player_P_bb := v }
  | Piece.wR, v => { b with player_R_bb := v }
  | Piece.wN, v => { b with player_N_bb := v }
  | Piece.wB, v => { b with player_B_bb := v }
  | Piece.wQ, v => { b with player_Q_bb := v }
  | Piece.wK, v => { b with player_K_bb := v }
  | Piece.bP, v => { b with computer_P_bb := v }
  | Piece.bR, v => { b with computer_R_bb := v }
  | Piece.bN, v => { b with computer_N_bb := v }
  | Piece.bB, v => { b with computer_B_bb := v }
  | Piece.bQ, v => { b with computer_Q_bb := v }
  | Piece.bK, v => { b with computer_K_bb := v }

def WakeBoard.player_pieces_bb (b : WakeBoard) : Nat :=
  b.player_P_bb ||| b.player_R_bb ||| b.player_N_bb ||| b.player_B_bb |||
    b.player_K_bb ||| b.player_Q_bb

def WakeBoard.computer_pieces_bb (b : WakeBoard) : Nat :=
  b.computer_P_bb ||| b.computer_R_bb ||| b.computer_N_bb |||
    b.computer_B_bb ||| b.computer_K_bb ||| b.computer_Q_bb

def WakeBoard.occupied_squares_bb (b : WakeBoard) : Nat :=
  b.player_pieces_bb ||| b.computer_pieces_bb

/-- `empty_squares_bb` is `~occupied` on `np.uint64`. -/
def WakeBoard.empty_squares_bb (b : WakeBoard) : Nat :=
  nnot b.occupied_squares_bb

/-- PLAYER pawn east attacks: north east (+9), not file A (the numpy
left shift wraps at 64 bits). -/
def WakeBoard.player_pawn_east_attacks (b : WakeBoard) : Nat :=
  ((b.player_P_bb <<< 9) &&& mask64) &&& nnot File_HEX_A

def WakeBoard.player_pawn_west_attacks (b : WakeBoard) : Nat :=
  ((b.player_P_bb <<< 7) &&& mask64) &&& nnot File_HEX_H

def WakeBoard.player_pawn_attacks (b : WakeBoard) : Nat :=
  b.player_pawn_east_attacks ||| b.player_pawn_west_attacks

def WakeBoard.computer_pawn_east_attacks (b : WakeBoard) : Nat :=
  (b.computer_P_bb >>> 7) &&& nnot File_HEX_A

def WakeBoard.computer_pawn_west_attacks (b : WakeBoard) : Nat :=
  (b.computer_P_bb >>> 9) &&& nnot File_HEX_H

def WakeBoard.computer_pawn_attacks (b : WakeBoard) : Nat :=
  b.computer_pawn_east_attacks ||| b.computer_pawn_west_attacks

/-- `_set_for_player` / `_set_for_computer` / `init_pieces`: the starting
board. -/
def initBoard : WakeBoard :=
  { player_P_bb := (List.range 8).foldl (fun bb i => bb ||| set_bit bb (8 + i)) 0
    player_R_bb := set_bit (set_bit 0 0) 7
    player_N_bb := set_bit (set_bit 0 1) 6
    player_B_bb := set_bit (set_bit 0 2) 5
    player_Q_bb := set_bit 0 3
    player_K_bb := set_bit 0 4
    computer_P_bb := (List.range 8).foldl (fun bb i => bb ||| set_bit bb (48 + i)) 0
    computer_R_bb := set_bit (set_bit 0 63) 56
    computer_N_bb := set_bit (set_bit 0 57) 62
    computer_B_bb := set_bit (set_bit 0 61) 58
    computer_Q_bb := set_bit 0 59
    computer_K_bb := set_bit 0 60 }

/-- Pawn table access (`player_pawn_motion_bbs[square]` etc.; the Python
dictionaries are only built for squares 8..55, where pawns can stand). -/
def get_pawn_motion_bb (rival : Rival) (square : Nat) : Nat :=
  match rival with
  | Rival.player => generate_player_pawn_motion_bb_from_square square
  | Rival.computer => generate_computer_pawn_motion_bb_from_square square

def get_pawn_attack_bb (rival : Rival) (square : Nat) : Nat :=
  match rival with
  | Rival.player => generate_player_pawn_attack_bb_from_square square
  | Rival.computer => generate_computer_pawn_attack_bb_from_square square

-- ---------------------------------------------------------------------
-- Move / MoveResult (wake_move.py)
-- ---------------------------------------------------------------------

/-- `Move`. -/
structure Move where
  piece_type_number : Piece
  from_square : Nat
  to_square : Nat
  is_capture : Bool := false
  is_en_passant : Bool := false
  is_castling : Bool := false
  is_promotion : Bool := false
deriving DecidableEq, Repr

/-- The `Move` constructor with a `(from, to)` pair. -/
def mkMove (piece : Piece) (from_square to_square : Nat) : Move :=
  { piece_type_number := piece, from_square := from_square,
    to_square := to_square }

/-- `Move.rival_identity`. -/
def Move.rival_identity (m : Move) : Rival :=
  if m.piece_type_number.isPlayer then Rival.player else Rival.computer

/-- The FEN record (wake_fen.py `generate_fen`): the string is determined
by, and determines, these fields, so equality of the records coincides
with equality of the generated strings.  `placement i` is the piece the
Python `fen_dict` assigns to string index `i` (bit `63 - i`); the `ep`
field is `None` also for square 0 because the source tests the target
with Python truthiness (`if position.en_passant_target:`). -/
structure FenRec where
  placement : List (Option Piece)
  side : Rival
  w_castle_king : Bool
  w_castle_queen : Bool
  b_castle_king : Bool
  b_castle_queen : Bool
  ep : Option Nat
  clock : Nat
  fullmove : Nat
deriving DecidableEq, Repr

/-- `MoveResult`. -/
structure MoveResult where
  is_king_in_check : Bool := false
  is_checkmate : Bool := false
  is_stalemate : Bool := false
  is_draw_claim_allowed : Bool := false
  is_illegal_move : Bool := false
  fen : FenRec
deriving DecidableEq, Repr

-- ---------------------------------------------------------------------
-- Position state (wake_position.py)
-- ---------------------------------------------------------------------

/-- One side's `[kingside, queenside]` castle-rights list. -/
structure CRPair where
  kingside : Bool
  queenside : Bool
deriving DecidableEq, Repr

/-- The `castle_rights` dictionary. -/
structure CastleRights where
  player : CRPair
  computer : CRPair
deriving DecidableEq, Repr

def CastleRights.get (c : CastleRights) : Rival → CRPair
  | Rival.player => c.player
  | Rival.computer => c.computer

def CastleRights.set (c : CastleRights) : Rival → CRPair → CastleRights
  | Rival.player, v => { c with player := v }
  | Rival.computer, v => { c with computer := v }

/-- The `king_in_check` two-element list. -/
structure KingCheck where
  player : Bool
  computer : Bool
deriving DecidableEq, Repr

def KingCheck.get (k : KingCheck) : Rival → Bool
  | Rival.player => k.player
  | Rival.computer => k.computer

/-- The `piece_map` dictionary: piece type to square set (held as a
bitboard). -/
structure PieceMap where
  wP : Nat
  wR : Nat
  wN : Nat
  wB : Nat
  wQ : Nat
  wK : Nat
  bP : Nat
  bR : Nat
  bN : Nat
  bB : Nat
  bQ : Nat
  bK : Nat
deriving DecidableEq, Repr

def PieceMap.get (pm : PieceMap) : Piece → Nat
  | Piece.wP => pm.wP
  | Piece.wR => pm.wR
  | Piece.wN => pm.wN
  | Piece.wB => pm.wB
  | Piece.wQ => pm.wQ
  | Piece.wK => pm.wK
  | Piece.bP => pm.bP
  | Piece.bR => pm.bR
  | Piece.bN => pm.bN
  | Piece.bB => pm.bB
  | Piece.bQ => pm.bQ
  | Piece.bK => pm.bK

def PieceMap.set (pm : PieceMap) : Piece → Nat → PieceMap
  | Piece.wP, v => { pm with wP := v }
  | Piece.wR, v => { pm with wR := v }
  | Piece.wN, v => { pm with wN := v }
  | Piece.wB, v => { pm with wB := v }
  | Piece.wQ, v => { pm with wQ := v }
  | Piece.wK, v => { pm with wK := v }
  | Piece.bP, v => { pm with bP := v }
  | Piece.bR, v => { pm with bR := v }
  | Piece.bN, v => { pm with bN := v }
  | Piece.bB, v => { pm with bB := v }
  | Piece.bQ, v => { pm with bQ := v }
  | Piece.bK, v => { pm with bK := v }

/-- The `piece_map` insertion order fixed by
`set_initial_piece_locations`. -/
def pieceOrder : List Piece :=
  [Piece.wP, Piece.wR, Piece.wN, Piece.wB, Piece.wQ, Piece.wK,
   Piece.bP, Piece.bR, Piece.bN, Piece.bB, Piece.bQ, Piece.bK]

/-- `Position`. -/
structure Position where
  board : WakeBoard
  pieceMap : PieceMap
  mailbox : List (Option Piece)
  rival_to_move : Rival
  castle_rights : CastleRights
  halfmove_clock : Nat
  halfmove : Nat
  en_passant_target : Option Nat
  en_passant_side : Rival
  is_en_passant_capture : Bool
  king_in_check : KingCheck
  position_history : List FenRec
  player_pawn_moves : Nat
  player_pawn_attacks : Nat
  player_rook_attacks : Nat
  player_knight_attacks : Nat
  player_bishop_attacks : Nat
  player_queen_attacks : Nat
  player_king_attacks : Nat
  computer_pawn_moves : Nat
  computer_pawn_attacks : Nat
  computer_rook_attacks : Nat
  computer_knight_attacks : Nat
  computer_bishop_attacks : Nat
  computer_queen_attacks : Nat
  computer_king_attacks : Nat
deriving DecidableEq, Repr

/-- `occupied_squares_by_rival`. -/
def Position.occupied_squares_by_rival (p : Position) : Rival → Nat
  | Rival.computer => p.board.computer_pieces_bb
  | Rival.player => p.board.player_pieces_bb

/-- `computer_attacked_squares`. -/
def Position.computer_attacked_squares (p : Position) : Nat :=
  p.computer_rook_attacks ||| p.computer_bishop_attacks |||
    p.computer_knight_attacks ||| p.computer_pawn_attacks |||
    p.computer_queen_attacks ||| p.computer_king_attacks

/-- `player_attacked_squares`. -/
def Position.player_attacked_squares (p : Position) : Nat :=
  p.player_rook_attacks ||| p.player_bishop_attacks |||
    p.player_knight_attacks ||| p.player_pawn_attacks |||
    p.player_queen_attacks ||| p.player_king_attacks

def Position.attacked_squares_of (p : Position) : Rival → Nat
  | Rival.player => p.player_attacked_squares
  | Rival.computer => p.computer_attacked_squares

/-- `set_initial_piece_locations`. -/
def initialPieceMap : PieceMap :=
  { wP := (List.range 8).foldl (fun bb i => set_bit bb (8 + i)) 0
    wR := set_bit (set_bit 0 0) 7
    wN := set_bit (set_bit 0 1) 6
    wB := set_bit (set_bit 0 2) 5
    wQ := set_bit 0 3
    wK := set_bit 0 4
    bP := (List.range 8).foldl (fun bb i => set_bit bb (48 + i)) 0
    bR := set_bit (set_bit 0 56) 63
    bN := set_bit (set_bit 0 57) 62
    bB := set_bit (set_bit 0 58) 61
    bQ := set_bit 0 59
    bK := set_bit 0 60 }

/-- `sync_mailbox_from_piece_map`: write each piece's squares into a
fresh mailbox (the real piece sets are disjoint, so the write order is
immaterial; the first piece holding the square is reported). -/
def sync_mailbox_from_piece_map (pm : PieceMap) : List (Option Piece) :=
  (List.range 64).map (fun sq =>
    pieceOrder.findSome? (fun piece =>
      if (pm.get piece).testBit sq then some piece else none))

/-- The freshly constructed `Position()`: note every attack and
pawn-motion bitboard starts at zero — the constructor never calls
`update_attack_bitboards`. -/
def startPosition : Position :=
  { board := initBoard
    pieceMap := initialPieceMap
    mailbox := sync_mailbox_from_piece_map initialPieceMap
    rival_to_move := Rival.player
    castle_rights :=
      { player := { kingside := true, queenside := true }
        computer := { kingside := true, queenside := true } }
    halfmove_clock := 0
    halfmove := 2
    en_passant_target := none
    en_passant_side := Rival.player
    is_en_passant_capture := false
    king_in_check := { player := false, computer := false }
    position_history := []
    player_pawn_moves := 0
    player_pawn_attacks := 0
    player_rook_attacks := 0
    player_knight_attacks := 0
    player_bishop_attacks := 0
    player_queen_attacks := 0
    player_king_attacks := 0
    computer_pawn_moves := 0
    computer_pawn_attacks := 0
    computer_rook_attacks := 0
    computer_knight_attacks := 0
    computer_bishop_attacks := 0
    computer_queen_attacks := 0
    computer_king_attacks := 0 }

-- ---------------------------------------------------------------------
-- FEN generation (wake_fen.py)
-- ---------------------------------------------------------------------

/-- The piece `generate_fen` leaves at string index `i` (bit `63 - i`):
assignments run computer pawn .. computer king then player pawn .. player
king, later writes overwriting earlier ones. -/
def fenPieceAt (b : WakeBoard) (bit : Nat) : Option Piece :=
  if b.player_K_bb.testBit bit then some Piece.wK
  else if b.player_Q_bb.testBit bit then some Piece.wQ
  else if b.player_B_bb.testBit bit then some Piece.wB
  else if b.player_N_bb.testBit bit then some Piece.wN
  else if b.player_R_bb.testBit bit then some Piece.wR
  else if b.player_P_bb.testBit bit then some Piece.wP
  else if b.computer_K_bb.testBit bit then some Piece.bK
  else if b.computer_Q_bb.testBit bit then some Piece.bQ
  else if b.computer_B_bb.testBit bit then some Piece.bB
  else if b.computer_N_bb.testBit bit then some Piece.bN
  else if b.computer_R_bb.testBit bit then some Piece.bR
  else if b.computer_P_bb.testBit bit then some Piece.bP
  else none

/-- `generate_fen` (wake_fen.py), as the record of the fields the FEN
string encodes. -/
def generate_fen (p : Position) : FenRec :=
  { placement := (List.range 64).map (fun i => fenPieceAt p.board (63 - i))
    side := p.rival_to_move
    w_castle_king := p.castle_rights.player.kingside
    w_castle_queen := p.castle_rights.player.queenside
    b_castle_king := p.castle_rights.computer.kingside
    b_castle_queen := p.castle_rights.computer.queenside
    ep := match p.en_passant_target with
      | some t => if t = 0 then none else some t
      | none => none
    clock := p.halfmove_clock
    fullmove := p.halfmove / 2 }

-- ---------------------------------------------------------------------
-- The change dictionary `original` of update_wakegame_position.
--
-- The Python dictionary maps string keys to recorded prior values; every
-- key targets a distinct Position/WakeBoard field (or a distinct mailbox
-- slot / piece-map entry), so the dictionary is represented as one
-- optional slot per key, `none` meaning "key not present".
-- ---------------------------------------------------------------------

/-- Recorded prior piece-map entries (`'piece_map <n>'` keys). -/
structure PieceMapD where
  wP : Option Nat := none
  wR : Option Nat := none
  wN : Option Nat := none
  wB : Option Nat := none
  wQ : Option Nat := none
  wK : Option Nat := none
  bP : Option Nat := none
  bR : Option Nat := none
  bN : Option Nat := none
  bB : Option Nat := none
  bQ : Option Nat := none
  bK : Option Nat := none
deriving DecidableEq, Repr

def PieceMapD.get (d : PieceMapD) : Piece → Option Nat
  | Piece.wP => d.wP
  | Piece.wR => d.wR
  | Piece.wN => d.wN
  | Piece.wB => d.wB
  | Piece.wQ => d.wQ
  | Piece.wK => d.wK
  | Piece.bP => d.bP
  | Piece.bR => d.bR
  | Piece.bN => d.bN
  | Piece.bB => d.bB
  | Piece.bQ => d.bQ
  | Piece.bK => d.bK

def PieceMapD.set (d : PieceMapD) : Piece → Option Nat → PieceMapD
  | Piece.wP, v => { d with wP := v }
  | Piece.wR, v => { d with wR := v }
  | Piece.wN, v => { d with wN := v }
  | Piece.wB, v => { d with wB := v }
  | Piece.wQ, v => { d with wQ := v }
  | Piece.wK, v => { d with wK := v }
  | Piece.bP, v => { d with bP := v }
  | Piece.bR, v => { d with bR := v }
  | Piece.bN, v => { d with bN := v }
  | Piece.bB, v => { d with bB := v }
  | Piece.bQ, v => { d with bQ := v }
  | Piece.bK, v => { d with bK := v }

/-- The diff dictionary `original`. -/
structure Diff where
  pieceMapD : PieceMapD := {}
  boardD : PieceMapD := {}
  mailboxD : List (Option (Option Piece)) := List.replicate 64 none
  player_pawn_movesD : Option Nat := none
  computer_pawn_movesD : Option Nat := none
  player_pawn_attacksD : Option Nat := none
  computer_pawn_attacksD : Option Nat := none
  player_rook_attacksD : Option Nat := none
  computer_rook_attacksD : Option Nat := none
  player_knight_attacksD : Option Nat := none
  computer_knight_attacksD : Option Nat := none
  player_bishop_attacksD : Option Nat := none
  computer_bishop_attacksD : Option Nat := none
  player_queen_attacksD : Option Nat := none
  computer_queen_attacksD : Option Nat := none
  player_king_attacksD : Option Nat := none
  computer_king_attacksD : Option Nat := none
  halfmove_clockD : Option Nat := none
  halfmoveD : Option Nat := none
  is_en_passant_captureD : Option Bool := none
  en_passant_sideD : Option Rival := none
  en_passant_targetD : Option (Option Nat) := none
  castling_rightsD : Option (List Rival) := none
  position_historyD : Option Nat := none
  rival_to_moveD : Option Rival := none
deriving DecidableEq, Repr

def emptyDiff : Diff := {}

/-- Record a mailbox slot only if its key is not present yet. -/
def Diff.recordMailbox (d : Diff) (sq : Nat) (v : Option Piece) : Diff :=
  match d.mailboxD.getD sq none with
  | some _ => d
  | none => { d with mailboxD := d.mailboxD.set sq (some v) }

/-- Record a piece-map entry only if its key is not present yet. -/
def Diff.recordPieceMap (d : Diff) (piece : Piece) (v : Nat) : Diff :=
  match d.pieceMapD.get piece with
  | some _ => d
  | none => { d with pieceMapD := d.pieceMapD.set piece (some v) }

/-- `undo_changes` (wake_position.py): restore every recorded entry.
The `'castling_rights'` key is deliberately a no-op on the position: the
source runs `setattr(position, attribute, value)` with the attribute name
`castling_rights`, which does not exist on `Position` (the field is
`castle_rights`), so the write creates a fresh unused attribute and
restores nothing. -/
def undo_changes (position : Position) (original : Diff) : Position :=
  { position with
    pieceMap :=
      pieceOrder.foldl (fun pm piece =>
        match original.pieceMapD.get piece with
        | some v => pm.set piece v
        | none => pm) position.pieceMap
    board :=
      pieceOrder.foldl (fun b piece =>
        match original.boardD.get piece with
        | some v => b.set piece v
        | none => b) position.board
    mailbox :=
      (List.range 64).foldl (fun mb sq =>
        match original.mailboxD.getD sq none with
        | some v => mb.set sq v
        | none => mb) position.mailbox
    player_pawn_moves :=
      original.player_pawn_movesD.getD position.player_pawn_moves
    computer_pawn_moves :=
      original.computer_pawn_movesD.getD position.computer_pawn_moves
    player_pawn_attacks :=
      original.player_pawn_attacksD.getD position.player_pawn_attacks
    computer_pawn_attacks :=
      original.computer_pawn_attacksD.getD position.computer_pawn_attacks
    player_rook_attacks :=
      original.player_rook_attacksD.getD position.player_rook_attacks
    computer_rook_attacks :=
      original.computer_rook_attacksD.getD position.computer_rook_attacks
    player_knight_attacks :=
      original.player_knight_attacksD.getD position.player_knight_attacks
    computer_knight_attacks :=
      original.computer_knight_attacksD.getD position.computer_knight_attacks
    player_bishop_attacks :=
      original.player_bishop_attacksD.getD position.player_bishop_attacks
    computer_bishop_attacks :=
      original.computer_bishop_attacksD.getD position.computer_bishop_attacks
    player_queen_attacks :=
      original.player_queen_attacksD.getD position.player_queen_attacks
    computer_queen_attacks :=
      original.computer_queen_attacksD.getD position.computer_queen_attacks
    player_king_attacks :=
      original.player_king_attacksD.getD position.player_king_attacks
    computer_king_attacks :=
      original.computer_king_attacksD.getD position.computer_king_attacks
    halfmove_clock := original.halfmove_clockD.getD position.halfmove_clock
    halfmove := original.halfmoveD.getD position.halfmove
    is_en_passant_capture :=
      original.is_en_passant_captureD.getD position.is_en_passant_capture
    en_passant_side := original.en_passant_sideD.getD position.en_passant_side
    en_passant_target :=
      original.en_passant_targetD.getD position.en_passant_target
    position_history :=
      match original.position_historyD with
      | some n => position.position_history.take n
      | none => position.position_history
    rival_to_move := original.rival_to_moveD.getD position.rival_to_move }

-- ---------------------------------------------------------------------
-- Move legality (wake_position.py)
-- ---------------------------------------------------------------------

/-- `is_capture`: does the destination intersect the rival's pieces? -/
def is_capture (p : Position) (m : Move) : Bool :=
  let moving_to_square_bb := set_bit 0 m.to_square
  match m.rival_identity with
  | Rival.player => moving_to_square_bb &&& p.board.computer_pieces_bb ≠ 0
  | Rival.computer => moving_to_square_bb &&& p.board.player_pieces_bb ≠ 0

/-- The per-square pawn dictionaries are built for squares 8..55 only
(`make_player_pawn_motion_bbs` iterates `range(Square.A2, Square.A8)`);
any other index raises `KeyError`. -/
def pawn_motion_tbl (rival : Rival) (square : Nat) : Option Nat :=
  if 8 ≤ square ∧ square < 56 then some (get_pawn_motion_bb rival square)
  else none

def pawn_attack_tbl (rival : Rival) (square : Nat) : Option Nat :=
  if 8 ≤ square ∧ square < 56 then some (get_pawn_attack_bb rival square)
  else none

/-- `is_not_pawn_motion_or_attack` (it reads only the board's static
per-square tables, which are the generator functions here). -/
def is_not_pawn_motion_or_attack (_p : Position) (m : Move) : Option Bool :=
  let to_sq_bb := set_bit 0 m.to_square
  match m.rival_identity with
  | Rival.player => do
      let motion ← pawn_motion_tbl Rival.player m.from_square
      let attack ← pawn_attack_tbl Rival.player m.from_square
      pure (decide ((motion ||| attack) &&& to_sq_bb = 0))
  | Rival.computer => do
      let motion ← pawn_motion_tbl Rival.computer m.from_square
      let attack ← pawn_attack_tbl Rival.computer m.from_square
      pure (decide ((motion ||| attack) &&& to_sq_bb = 0))

def is_not_bishop_attack (p : Position) (m : Move) : Bool :=
  let bb := set_bit 0 m.to_square
  match m.rival_identity with
  | Rival.player => p.player_bishop_attacks &&& bb = 0
  | Rival.computer => p.computer_bishop_attacks &&& bb = 0

def is_not_knight_attack (p : Position) (m : Move) : Bool :=
  let bb := set_bit 0 m.to_square
  match m.rival_identity with
  | Rival.player => p.player_knight_attacks &&& bb = 0
  | Rival.computer => p.computer_knight_attacks &&& bb = 0

def is_not_king_attack (p : Position) (m : Move) : Bool :=
  let bb := set_bit 0 m.to_square
  match m.rival_identity with
  | Rival.player => p.player_king_attacks &&& bb = 0
  | Rival.computer => p.computer_king_attacks &&& bb = 0

def is_not_queen_attack (p : Position) (m : Move) : Bool :=
  let bb := set_bit 0 m.to_square
  match m.rival_identity with
  | Rival.player => p.player_queen_attacks &&& bb = 0
  | Rival.computer => p.computer_queen_attacks &&& bb = 0

def is_not_rook_attack (p : Position) (m : Move) : Bool :=
  let bb := set_bit 0 m.to_square
  match m.rival_identity with
  | Rival.player => p.player_rook_attacks &&& bb = 0
  | Rival.computer => p.computer_rook_attacks &&& bb = 0

/-- `is_castling` (static). -/
def is_castling (m : Move) : Bool :=
  (m.from_square = Square_E1 ∧
    (m.to_square = Square_G1 ∨ m.to_square = Square_C1)) ∨
  (m.from_square = Square_E8 ∧
    (m.to_square = Square_G8 ∨ m.to_square = Square_C8))

/-- `is_promotion`. -/
def is_promotion (m : Move) : Bool :=
  (m.rival_identity = Rival.player ∧ inRank8 m.to_square) ∨
  (m.rival_identity = Rival.computer ∧ inRank1 m.to_square)

/-- `try_get_en_passant_target`. -/
def try_get_en_passant_target (m : Move) : Option Nat :=
  if m.piece_type_number ≠ Piece.wP ∧ m.piece_type_number ≠ Piece.bP then none
  else if m.rival_identity = Rival.player ∧ inRank4 m.to_square ∧
      inRank2 m.from_square then some (m.to_square - 8)
  else if m.rival_identity = Rival.computer ∧ inRank5 m.to_square ∧
      inRank7 m.from_square then some (m.to_square + 8)
  else none

/-- `is_legal_pawn_move`.  Comparisons such as `from == to - 8` are over
the integers as in Python; the two-square blocking test keeps the
source's inverted comparison (`from == to + 16` for white, which no
board squares satisfy, so the square-between check is dead code).
`none` is the `KeyError` of the per-square pawn table lookup; for a
piece that is not a pawn the Python function falls off the end (the
dispatcher never sends one here). -/
def is_legal_pawn_move (p : Position) (m : Move) : Option Bool :=
  let current_square_bb := set_bit 0 m.from_square
  let moving_to_square_bb := set_bit 0 m.to_square
  let potential_en_passant_target : Nat :=
    match p.en_passant_target with
    | some t => set_bit 0 t
    | none => 0
  match m.piece_type_number with
  | Piece.wP =>
    if p.board.player_P_bb &&& current_square_bb = 0 then some false
    else do
      let isnot ← is_not_pawn_motion_or_attack p m
      if isnot then pure false
      else if (m.from_square : Int) = (m.to_square : Int) - 8 ∧
          moving_to_square_bb &&& p.board.occupied_squares_bb ≠ 0 then
        pure false
      else if inRank2 m.from_square ∧
          (m.from_square : Int) = (m.to_square : Int) + 16 ∧
          set_bit 0 (m.to_square + 8) &&& p.board.occupied_squares_bb ≠ 0 then
        pure false
      else if ((m.from_square : Int) = (m.to_square : Int) - 9 ∨
               (m.from_square : Int) = (m.to_square : Int) - 7) ∧
          (p.player_pawn_attacks &&& moving_to_square_bb) &&&
            nnot (p.board.computer_pieces_bb |||
              potential_en_passant_target) ≠ 0 then
        pure false
      else pure true
  | Piece.bP =>
    if p.board.computer_P_bb &&& current_square_bb = 0 then some false
    else do
      let isnot ← is_not_pawn_motion_or_attack p m
      if isnot then pure false
      else if (m.from_square : Int) = (m.to_square : Int) + 8 ∧
          moving_to_square_bb &&& p.board.occupied_squares_bb ≠ 0 then
        pure false
      else if inRank7 m.from_square ∧
          (m.from_square : Int) = (m.to_square : Int) - 16 ∧
          set_bit 0 (m.to_square - 8) &&& p.board.occupied_squares_bb ≠ 0 then
        pure false
      else if ((m.from_square : Int) = (m.to_square : Int) + 9 ∨
               (m.from_square : Int) = (m.to_square : Int) + 7) ∧
          (p.computer_pawn_attacks &&& moving_to_square_bb) &&&
            nnot (p.board.player_pieces_bb |||
              potential_en_passant_target) ≠ 0 then
        pure false
      else pure true
  | _ => some false

def is_legal_bishop_move (p : Position) (m : Move) : Bool :=
  let current_square_bb := set_bit 0 m.from_square
  match m.piece_type_number with
  | Piece.wB =>
    if p.board.player_B_bb &&& current_square_bb = 0 then false
    else ¬ is_not_bishop_attack p m
  | Piece.bB =>
    if p.board.computer_B_bb &&& current_square_bb = 0 then false
    else ¬ is_not_bishop_attack p m
  | _ => false

def is_legal_rook_move (p : Position) (m : Move) : Bool :=
  let current_square_bb := set_bit 0 m.from_square
  match m.piece_type_number with
  | Piece.wR =>
    if p.board.player_R_bb &&& current_square_bb = 0 then false
    else ¬ is_not_rook_attack p m
  | Piece.bR =>
    if p.board.computer_R_bb &&& current_square_bb = 0 then false
    else ¬ is_not_rook_attack p m
  | _ => false

def is_legal_knight_move (p : Position) (m : Move) : Bool :=
  let current_square_bb := set_bit 0 m.from_square
  match m.piece_type_number with
  | Piece.wN =>
    if p.board.player_N_bb &&& current_square_bb = 0 then false
    else ¬ is_not_knight_attack p m
  | Piece.bN =>
    if p.board.computer_N_bb &&& current_square_bb = 0 then false
    else ¬ is_not_knight_attack p m
  | _ => false

def is_legal_queen_move (p : Position) (m : Move) : Bool :=
  let current_square_bb := set_bit 0 m.from_square
  match m.piece_type_number with
  | Piece.wQ =>
    if p.board.player_Q_bb &&& current_square_bb = 0 then false
    else ¬ is_not_queen_attack p m
  | Piece.bQ =>
    if p.board.computer_Q_bb &&& current_square_bb = 0 then false
    else ¬ is_not_queen_attack p m
  | _ => false

def is_legal_king_move (p : Position) (m : Move) : Bool :=
  let current_square_bb := set_bit 0 m.from_square
  match m.piece_type_number with
  | Piece.wK =>
    if p.board.player_K_bb &&& current_square_bb = 0 then false
    else ¬ is_not_king_attack p m
  | Piece.bK =>
    if p.board.computer_K_bb &&& current_square_bb = 0 then false
    else ¬ is_not_king_attack p m
  | _ => false

/-- `is_legal_move`, called as the source always calls it with a fresh
empty `original` dictionary.  It returns the legality verdict, the
diff, the (possibly en-passant-mutated) position and the move with its
flags set.  `none` models an `AssertionError` from the en-passant
asserts (both are unreachable here because the dictionary starts
empty and the freshly assigned target `to ∓ 8` never equals `to`). -/
def is_legal_move (p : Position) (m : Move) :
    Option (Bool × Diff × Position × Move) :=
  let d : Diff := emptyDiff
  let m := if is_capture p m then { m with is_capture := true } else m
  match m.piece_type_number with
  | Piece.wB | Piece.bB => some (is_legal_bishop_move p m, d, p, m)
  | Piece.wR | Piece.bR => some (is_legal_rook_move p m, d, p, m)
  | Piece.wN | Piece.bN => some (is_legal_knight_move p m, d, p, m)
  | Piece.wQ | Piece.bQ => some (is_legal_queen_move p m, d, p, m)
  | Piece.wK | Piece.bK =>
    if ¬ is_legal_king_move p m then some (false, d, p, m)
    else
      let m := if is_castling m then { m with is_castling := true } else m
      some (true, d, p, m)
  | Piece.wP | Piece.bP => do
    let legal ← is_legal_pawn_move p m
    if ¬ legal then pure (false, d, p, m)
    else if is_promotion m then
      pure (true, d, p, { m with is_promotion := true })
    else
      match try_get_en_passant_target m with
      | some tgt =>
        if d.en_passant_sideD ≠ none ∨ d.en_passant_targetD ≠ none then none
        else
          let d := { d with en_passant_sideD := some p.en_passant_side,
                            en_passant_targetD := some p.en_passant_target }
          let p := { p with en_passant_side := m.rival_identity,
                            en_passant_target := some tgt }
          if p.en_passant_target = some m.to_square then none
          else pure (true, d, p, m)
      | none =>
        if p.en_passant_target = some m.to_square then
          if d.en_passant_targetD ≠ none then none
          else
            let d := { d with en_passant_targetD := some p.en_passant_target }
            let p := { p with is_en_passant_capture := true }
            pure (true, d, p, m)
        else pure (true, d, p, m)

-- ---------------------------------------------------------------------
-- make: update_wakegame_position and its stages (wake_position.py)
-- ---------------------------------------------------------------------

/-- `remove_opponent_piece_from_square`: `none` is the `IndexError` of
an out-of-range mailbox read or the `KeyError` of removing an absent
square from the piece set. -/
def remove_opponent_piece_from_square (p : Position) (to_square : Nat)
    (d : Diff) : Option (Position × Diff) :=
  if to_square < p.mailbox.length then
    match p.mailbox.getD to_square none with
    | none => some (p, d)
    | some target =>
      let d := d.recordPieceMap target (p.pieceMap.get target)
      let d := d.recordMailbox to_square (some target)
      if (p.pieceMap.get target).testBit to_square then
        some ({ p with
            pieceMap := p.pieceMap.set target
              (clear_bit (p.pieceMap.get target) to_square),
            mailbox := p.mailbox.set to_square none }, d)
      else none
  else none

/-- Step (capture) of `update_wakegame_position`: reset the clock,
recording the prior value unconditionally as the source does, and
remove the captured piece. -/
def capture_step (p : Position) (d : Diff) (m : Move) :
    Option (Position × Diff) :=
  if m.is_capture then
    let d := { d with halfmove_clockD := some p.halfmove_clock }
    let p := { p with halfmove_clock := 0 }
    remove_opponent_piece_from_square p m.to_square d
  else some (p, d)

/-- Step (en-passant capture): remove the pawn behind the target. -/
def ep_capture_step (p : Position) (d : Diff) (m : Move) :
    Option (Position × Diff) :=
  if p.is_en_passant_capture then
    match m.rival_identity with
    | Rival.player => remove_opponent_piece_from_square p (m.to_square - 8) d
    | Rival.computer => remove_opponent_piece_from_square p (m.to_square + 8) d
  else some (p, d)

/-- Step (clear the en-passant-capture flag, recording it). -/
def ep_flag_step (p : Position) (d : Diff) : Position × Diff :=
  ({ p with is_en_passant_capture := false },
   { d with is_en_passant_captureD := some p.is_en_passant_capture })

/-- Step (pawn move resets the clock; the prior value is recorded only
if the capture branch has not recorded it already). -/
def pawn_clock_step (p : Position) (d : Diff) (m : Move) : Position × Diff :=
  if m.piece_type_number = Piece.wP ∨ m.piece_type_number = Piece.bP then
    let d := if d.halfmove_clockD = none then
        { d with halfmove_clockD := some p.halfmove_clock } else d
    ({ p with halfmove_clock := 0 }, d)
  else (p, d)

/-- Step (relocate the moving piece in piece map and mailbox, recording
each touched entry the first time). -/
def relocate_step (p : Position) (d : Diff) (m : Move) :
    Option (Position × Diff) :=
  if m.from_square < p.mailbox.length ∧ m.to_square < p.mailbox.length then
    let d := d.recordPieceMap m.piece_type_number
      (p.pieceMap.get m.piece_type_number)
    let d := d.recordMailbox m.from_square (p.mailbox.getD m.from_square none)
    let d := d.recordMailbox m.to_square (p.mailbox.getD m.to_square none)
    if (p.pieceMap.get m.piece_type_number).testBit m.from_square then
      some ({ p with
          pieceMap := p.pieceMap.set m.piece_type_number
            (set_bit (clear_bit (p.pieceMap.get m.piece_type_number)
              m.from_square) m.to_square),
          mailbox := (p.mailbox.set m.from_square none).set m.to_square
            (some m.piece_type_number) }, d)
    else none
  else none

/-- `move_rooks_for_castling`: `none` covers the `KeyError` of a
destination outside the four castling squares, a failing assert (a
diff key already present), an out-of-range mailbox index, and the
`KeyError` of removing an absent rook square. -/
def move_rooks_for_castling (p : Position) (d : Diff) (m : Move) :
    Option (Position × Diff) :=
  let pair : Option (Nat × Nat) :=
    if m.to_square = Square_G1 then some (Square_H1, Square_F1)
    else if m.to_square = Square_C1 then some (Square_A1, Square_D1)
    else if m.to_square = Square_G8 then some (Square_H8, Square_F8)
    else if m.to_square = Square_C8 then some (Square_A8, Square_D8)
    else none
  match pair with
  | none => none
  | some (from_square, to_square) =>
    let rook_piece := match m.rival_identity with
      | Rival.player => Piece.wR
      | Rival.computer => Piece.bR
    if d.pieceMapD.get rook_piece ≠ none then none
    else if d.mailboxD.getD from_square none ≠ none then none
    else if d.mailboxD.getD to_square none ≠ none then none
    else if from_square < p.mailbox.length ∧ to_square < p.mailbox.length then
      let d := d.recordPieceMap rook_piece (p.pieceMap.get rook_piece)
      let d := d.recordMailbox from_square (p.mailbox.getD from_square none)
      let d := d.recordMailbox to_square (p.mailbox.getD to_square none)
      if (p.pieceMap.get rook_piece).testBit from_square then
        some ({ p with
            pieceMap := p.pieceMap.set rook_piece
              (set_bit (clear_bit (p.pieceMap.get rook_piece) from_square)
                to_square),
            mailbox := (p.mailbox.set from_square none).set to_square
              (some rook_piece) }, d)
      else none
    else none

/-- Step (promotion / castling): `promote_pawn` reads interactive input
in an unbounded loop, so a flagged promotion never returns a value. -/
def promotion_castling_step (p : Position) (d : Diff) (m : Move) :
    Option (Position × Diff) :=
  if m.is_promotion then none
  else if m.is_castling then move_rooks_for_castling p d m
  else some (p, d)

/-- Step (advance both counters, recording the priors; the clock is
recorded only if no earlier step recorded it). -/
def counters_step (p : Position) (d : Diff) : Position × Diff :=
  let d := if d.halfmove_clockD = none then
      { d with halfmove_clockD := some p.halfmove_clock } else d
  let d := { d with halfmoveD := some p.halfmove }
  ({ p with halfmove_clock := p.halfmove_clock + 1,
            halfmove := p.halfmove + 1 }, d)

/-- `adjust_castling_rights`.  The recorded value is `list(castle_rights)`
— the list of the dictionary's KEYS, `[Rival.player, Rival.computer]` —
not the rights themselves; `undo_changes` then assigns it to the
nonexistent attribute `castling_rights`, so the rights are never
restored. -/
def adjust_castling_rights (p : Position) (d : Diff) (m : Move) :
    Position × Diff :=
  if m.piece_type_number = Piece.wK ∨ m.piece_type_number = Piece.bK ∨
     m.piece_type_number = Piece.wR ∨ m.piece_type_number = Piece.bR then
    let d := { d with castling_rightsD := some [Rival.player, Rival.computer] }
    let cr := p.castle_rights
    let cr := if m.piece_type_number = Piece.wK then
        { cr with player := { kingside := false, queenside := false } } else cr
    let cr := if m.piece_type_number = Piece.bK then
        { cr with computer := { kingside := false, queenside := false } }
      else cr
    let cr := if m.piece_type_number = Piece.wR ∧ m.from_square = Square_H1 then
        { cr with player := { cr.player with kingside := false } } else cr
    let cr := if m.piece_type_number = Piece.wR ∧ m.from_square = Square_A1 then
        { cr with player := { cr.player with queenside := false } } else cr
    let cr := if m.piece_type_number = Piece.bR ∧ m.from_square = Square_H8 then
        { cr with computer := { cr.computer with kingside := false } } else cr
    let cr := if m.piece_type_number = Piece.bR ∧ m.from_square = Square_A8 then
        { cr with computer := { cr.computer with queenside := false } } else cr
    ({ p with castle_rights := cr }, d)
  else (p, d)

/-- Step (castling rights, guarded by the mover still having a right). -/
def rights_step (p : Position) (d : Diff) (m : Move) : Position × Diff :=
  let cr := p.castle_rights.get m.rival_identity
  if cr.kingside ∨ cr.queenside then adjust_castling_rights p d m else (p, d)

/-- Step (clear the en-passant target when the side that set it is not
the mover). -/
def ep_clear_step (p : Position) (d : Diff) (m : Move) : Position × Diff :=
  if p.en_passant_side ≠ m.rival_identity then
    let d := if d.en_passant_targetD = none then
        { d with en_passant_targetD := some p.en_passant_target } else d
    ({ p with en_passant_target := none }, d)
  else (p, d)

/-- `update_position_bitboards` (wake_board.py).  Modelled from the
spec: the file in src/ is a stale copy whose signature does not match
the call site (it takes no diff and records nothing, so calling it as
`update_position_bitboards(piece_map, original)` could not run); per
the spec's make protocol the real method rebuilds each per-piece board
bitboard from the piece map and records each prior value the first
time it is touched, and `undo_changes` restores keys ending `_bb` onto
the board by assignment. -/
def update_position_bitboards (p : Position) (d : Diff) : Position × Diff :=
  let d := pieceOrder.foldl (fun d piece =>
    match d.boardD.get piece with
    | some _ => d
    | none => { d with boardD := d.boardD.set piece (some (p.board.get piece)) })
    d
  let b := pieceOrder.foldl (fun b piece => b.set piece (p.pieceMap.get piece))
    p.board
  ({ p with board := b }, d)

-- ---------------------------------------------------------------------
-- Attack-bitboard recomputation (wake_position.py)
-- ---------------------------------------------------------------------

/-- `reset_attack_bitboards`: record all fourteen attack fields (plain
dictionary assignment — it overwrites), then zero the ten piece-attack
fields; the four pawn fields are recorded but not zeroed. -/
def reset_attack_bitboards (p : Position) (d : Diff) : Position × Diff :=
  let d := { d with
    player_rook_attacksD := some p.player_rook_attacks
    computer_rook_attacksD := some p.computer_rook_attacks
    player_bishop_attacksD := some p.player_bishop_attacks
    computer_bishop_attacksD := some p.computer_bishop_attacks
    player_knight_attacksD := some p.player_knight_attacks
    computer_knight_attacksD := some p.computer_knight_attacks
    player_queen_attacksD := some p.player_queen_attacks
    computer_queen_attacksD := some p.computer_queen_attacks
    player_king_attacksD := some p.player_king_attacks
    computer_king_attacksD := some p.computer_king_attacks
    player_pawn_attacksD := some p.player_pawn_attacks
    computer_pawn_attacksD := some p.computer_pawn_attacks
    player_pawn_movesD := some p.player_pawn_moves
    computer_pawn_movesD := some p.computer_pawn_moves }
  ({ p with
    player_rook_attacks := 0
    computer_rook_attacks := 0
    player_bishop_attacks := 0
    computer_bishop_attacks := 0
    player_knight_attacks := 0
    computer_knight_attacks := 0
    player_queen_attacks := 0
    computer_queen_attacks := 0
    player_king_attacks := 0
    computer_king_attacks := 0 }, d)

/-- `update_legal_pawn_moves`.  Both rivals' table entries are read when
the dictionaries are built (a `KeyError` for a square outside 8..55),
both position pawn-attack fields are re-assigned from the board at
entry, and the own-piece-masked `legal_moves` value is computed but
never used — only the attack and non-attack components are OR-ed in. -/
def update_legal_pawn_moves (p : Position) (move_from_square : Nat)
    (rival_to_move : Rival) : Option Position :=
  let p := { p with player_pawn_attacks := p.board.player_pawn_attacks,
                    computer_pawn_attacks := p.board.computer_pawn_attacks }
  if 8 ≤ move_from_square ∧ move_from_square < 56 then
    let legal_non_attack_moves :=
      get_pawn_motion_bb rival_to_move move_from_square &&&
        p.board.empty_squares_bb
    let legal_attack_moves0 := get_pawn_attack_bb rival_to_move move_from_square
    let legal_attack_moves :=
      match p.en_passant_target with
      | some t =>
        let en_passant_move := legal_attack_moves0 &&& set_bit 0 t
        if en_passant_move ≠ 0 then legal_attack_moves0 ||| en_passant_move
        else legal_attack_moves0
      | none => legal_attack_moves0
    match rival_to_move with
    | Rival.player => some { p with
        player_pawn_attacks := p.player_pawn_attacks ||| legal_attack_moves,
        player_pawn_moves := p.player_pawn_moves ||| legal_non_attack_moves }
    | Rival.computer => some { p with
        computer_pawn_attacks := p.computer_pawn_attacks ||| legal_attack_moves,
        computer_pawn_moves := p.computer_pawn_moves ||| legal_non_attack_moves }
  else none

/-- `update_legal_knight_moves` (the static table holds squares
0..63). -/
def update_legal_knight_moves (p : Position) (move_from_square : Nat)
    (rival_to_move : Rival) : Option Position :=
  if move_from_square < 64 then
    let legal := generate_knight_attack_bb_from_square move_from_square
    match rival_to_move with
    | Rival.player => some { p with player_knight_attacks :=
        p.player_knight_attacks |||
          (legal &&& nnot p.board.player_pieces_bb) }
    | Rival.computer => some { p with computer_knight_attacks :=
        p.computer_knight_attacks |||
          (legal &&& nnot p.board.computer_pieces_bb) }
  else none

/-- `update_legal_rook_moves` applied to a position (the pure ray core
is `update_legal_rook_moves` above). -/
def update_legal_rook_moves_on (p : Position) (move_from_square : Nat)
    (rival_to_move : Rival) : Position :=
  let legal := update_legal_rook_moves p.board.occupied_squares_bb
    (p.occupied_squares_by_rival rival_to_move) move_from_square
  match rival_to_move with
  | Rival.player =>
    { p with player_rook_attacks := p.player_rook_attacks ||| legal }
  | Rival.computer =>
    { p with computer_rook_attacks := p.computer_rook_attacks ||| legal }

def update_legal_bishop_moves_on (p : Position) (move_from_square : Nat)
    (rival_to_move : Rival) : Position :=
  let legal := update_legal_bishop_moves p.board.occupied_squares_bb
    (p.occupied_squares_by_rival rival_to_move) move_from_square
  match rival_to_move with
  | Rival.player =>
    { p with player_bishop_attacks := p.player_bishop_attacks ||| legal }
  | Rival.computer =>
    { p with computer_bishop_attacks := p.computer_bishop_attacks ||| legal }

def update_legal_queen_moves_on (p : Position) (move_from_square : Nat)
    (rival_to_move : Rival) : Position :=
  let legal := update_legal_queen_moves p.board.occupied_squares_bb
    (p.occupied_squares_by_rival rival_to_move) move_from_square
  match rival_to_move with
  | Rival.player =>
    { p with player_queen_attacks := p.player_queen_attacks ||| legal }
  | Rival.computer =>
    { p with computer_queen_attacks := p.computer_queen_attacks ||| legal }

/-- `can_castle`. -/
def can_castle (p : Position) (rival_to_move : Rival) : Bool × Bool :=
  let cr := p.castle_rights.get rival_to_move
  if ¬ cr.kingside ∨ ¬ cr.queenside then (false, false)
  else match rival_to_move with
  | Rival.player =>
    let blocked := p.computer_attacked_squares |||
      (p.board.player_pieces_bb &&& nnot p.board.player_K_bb)
    let kingside_blocked := blocked &&& CastleRoute_PLAYER_KINGSIDE
    let queenside_blocked := blocked &&& CastleRoute_PLAYER_QUEENSIDE
    let is_rook_on_h1 := p.board.player_R_bb &&& set_bit 0 Square_H1
    let is_rook_on_a1 := p.board.player_R_bb &&& set_bit 0 Square_A1
    (kingside_blocked = 0 ∧ is_rook_on_h1 ≠ 0,
     queenside_blocked = 0 ∧ is_rook_on_a1 ≠ 0)
  | Rival.computer =>
    let blocked := p.player_attacked_squares |||
      (p.board.computer_pieces_bb &&& nnot p.board.computer_K_bb)
    let kingside_blocked := blocked &&& CastleRoute_COMPUTER_KINGSIDE
    let queenside_blocked := blocked &&& CastleRoute_COMPUTER_QUEENSIDE
    let is_rook_on_h8 := p.board.computer_R_bb &&& set_bit 0 Square_H8
    let is_rook_on_a8 := p.board.computer_R_bb &&& set_bit 0 Square_A8
    (kingside_blocked = 0 ∧ is_rook_on_h8 ≠ 0,
     queenside_blocked = 0 ∧ is_rook_on_a8 ≠ 0)

/-- `add_castling_moves`. -/
def add_castling_moves (bitboard : Nat) (can : Bool × Bool)
    (rival_to_move : Rival) : Nat :=
  match rival_to_move with
  | Rival.player =>
    let bb := if can.1 then bitboard ||| set_bit bitboard Square_G1
      else bitboard
    if can.2 then bb ||| set_bit bb Square_C1 else bb
  | Rival.computer =>
    let bb := if can.1 then bitboard ||| set_bit bitboard Square_G8
      else bitboard
    if can.2 then bb ||| set_bit bb Square_C8 else bb

/-- `update_legal_king_moves`. -/
def update_legal_king_moves (p : Position) (move_from_square : Nat)
    (rival_to_move : Rival) : Option Position :=
  if move_from_square < 64 then
    let king_moves := generate_king_attack_bb_from_square move_from_square
    let own_piece_targets := match rival_to_move with
      | Rival.player => p.board.player_pieces_bb
      | Rival.computer => p.board.computer_pieces_bb
    let king_moves := if own_piece_targets ≠ 0 then
        king_moves &&& nnot own_piece_targets else king_moves
    let can_castle_pair := can_castle p rival_to_move
    let king_moves := if can_castle_pair.1 ∨ can_castle_pair.2 then
        king_moves ||| add_castling_moves king_moves can_castle_pair
          rival_to_move
      else king_moves
    match rival_to_move with
    | Rival.player => some { p with player_king_attacks :=
        p.player_king_attacks ||| king_moves }
    | Rival.computer => some { p with computer_king_attacks :=
        p.computer_king_attacks ||| king_moves }
  else none

/-- Run an updater over a list of squares, threading the position. -/
def foldPosM (p : Position) (l : List Nat)
    (f : Position → Nat → Option Position) : Option Position :=
  match l with
  | [] => some p
  | sq :: rest =>
    match f p sq with
    | some q => foldPosM q rest f
    | none => none

/-- The per-square updater `update_attack_bitboards` runs for each
piece type. -/
def piece_updater : Piece → Position → Nat → Option Position
  | Piece.wP => fun q sq => update_legal_pawn_moves q sq Rival.player
  | Piece.wR => fun q sq => some (update_legal_rook_moves_on q sq Rival.player)
  | Piece.wN => fun q sq => update_legal_knight_moves q sq Rival.player
  | Piece.wB => fun q sq =>
      some (update_legal_bishop_moves_on q sq Rival.player)
  | Piece.wQ => fun q sq => some (update_legal_queen_moves_on q sq Rival.player)
  | Piece.wK => fun q sq => update_legal_king_moves q sq Rival.player
  | Piece.bP => fun q sq => update_legal_pawn_moves q sq Rival.computer
  | Piece.bR => fun q sq =>
      some (update_legal_rook_moves_on q sq Rival.computer)
  | Piece.bN => fun q sq => update_legal_knight_moves q sq Rival.computer
  | Piece.bB => fun q sq =>
      some (update_legal_bishop_moves_on q sq Rival.computer)
  | Piece.bQ => fun q sq =>
      some (update_legal_queen_moves_on q sq Rival.computer)
  | Piece.bK => fun q sq => update_legal_king_moves q sq Rival.computer

/-- Walk piece types in dictionary order, updating square by square. -/
def run_updates (p : Position) (pieces : List Piece) : Option Position :=
  match pieces with
  | [] => some p
  | piece :: rest => do
    let q ← foldPosM p (get_squares_from_bitboard (p.pieceMap.get piece))
      (piece_updater piece)
    run_updates q rest

/-- `update_attack_bitboards`: reset, then walk the piece map in its
fixed insertion order.  The recording for black pawns is the source's
typo `original['computer_pawn_moves'] = self.player_pawn_moves` — by
the time the iteration reaches the black pawns the white-pawn loop has
already rebuilt `player_pawn_moves`, so the diff stores white's fresh
pawn-move board under the computer key. -/
def update_attack_bitboards (p0 : Position) (d0 : Diff) :
    Option (Position × Diff) := do
  let (p, d) := reset_attack_bitboards p0 d0
  let d := { d with player_pawn_movesD := some p.player_pawn_moves }
  let p ← run_updates p
    [Piece.wP, Piece.wR, Piece.wN, Piece.wB, Piece.wQ, Piece.wK]
  let d := { d with computer_pawn_movesD := some p.player_pawn_moves }
  let p ← run_updates p
    [Piece.bP, Piece.bR, Piece.bN, Piece.bB, Piece.bQ, Piece.bK]
  pure (p, d)

/-- `evaluate_king_check`. -/
def evaluate_king_check (p : Position) : Position :=
  { p with king_in_check :=
    { player := p.computer_attacked_squares &&& p.board.player_K_bb ≠ 0,
      computer := p.player_attacked_squares &&& p.board.computer_K_bb ≠ 0 } }

/-- The `make_*_result` constructors. -/
def make_move_result (p : Position) : MoveResult := { fen := generate_fen p }

def make_illegal_move_result (p : Position) : MoveResult :=
  { is_illegal_move := true, fen := generate_fen p }

def make_king_in_check_result (p : Position) : MoveResult :=
  { is_king_in_check := true, fen := generate_fen p }

def make_checkmate_result (p : Position) : MoveResult :=
  { is_checkmate := true, fen := generate_fen p }

def make_stalemate_result (p : Position) : MoveResult :=
  { is_stalemate := true, fen := generate_fen p }

def make_draw_result (p : Position) : MoveResult :=
  { is_draw_claim_allowed := true, fen := generate_fen p }

/-- The body of `update_wakegame_position` after the legality gate, in
the source's statement order. -/
def apply_move_stages (p : Position) (d : Diff) (m : Move) :
    Option (Position × Diff) := do
  let (p, d) ← capture_step p d m
  let (p, d) ← ep_capture_step p d m
  let (p, d) := ep_flag_step p d
  let (p, d) := pawn_clock_step p d m
  let (p, d) ← relocate_step p d m
  let (p, d) ← promotion_castling_step p d m
  let (p, d) := counters_step p d
  let (p, d) := rights_step p d m
  let (p, d) := ep_clear_step p d m
  let (p, d) := update_position_bitboards p d
  let (p, d) ← update_attack_bitboards p d
  pure (evaluate_king_check p, d)

/-- `update_wakegame_position`: the make.  The outer `Option` is
abnormal termination (an uncaught exception or the interactive
promotion loop); the inner `Option MoveResult` is `None` on success
and the illegal-move result when legality fails.  The returned move
carries the flags `is_legal_move` set. -/
def update_wakegame_position (p0 : Position) (m0 : Move) :
    Option (Option MoveResult × Diff × Position × Move) := do
  let (legal, d, p, m) ← is_legal_move p0 m0
  if ¬ legal then
    pure (some (make_illegal_move_result p), d, p, m)
  else do
    let (p, d) ← apply_move_stages p d m
    pure (none, d, p, m)

-- ---------------------------------------------------------------------
-- Probing for legal moves (wake_position.py)
-- ---------------------------------------------------------------------

/-- `evaluate_move`: make, then undo, then judge; the position object
keeps whatever `undo_changes` failed to restore, so the post-probe
state is returned alongside the verdict. -/
def evaluate_move (m : Move) (p : Position) : Option (MoveResult × Position) := do
  let (mr, d, p1, _) ← update_wakegame_position p m
  let p2 := undo_changes p1 d
  match mr with
  | some r => pure (r, p2)
  | none =>
    if p2.king_in_check.get p2.rival_to_move then
      pure (make_illegal_move_result p2, p2)
    else pure (make_move_result p2, p2)

/-- Probe one from-square against a list of destinations, stopping at
the first legal move. -/
def probeList (p : Position) (tos : List Nat) (mk : Nat → Move) :
    Option (Bool × Position) :=
  match tos with
  | [] => some (false, p)
  | t :: rest => do
    let (mr, p1) ← evaluate_move (mk t) p
    if ¬ mr.is_illegal_move then pure (true, p1)
    else probeList p1 rest mk

/-- Probe every (from, to) pair, stopping at the first legal move. -/
def probePairs (p : Position) (froms tos : List Nat) (piece : Piece) :
    Option (Bool × Position) :=
  match froms with
  | [] => some (false, p)
  | f :: rest => do
    let (found, p1) ← probeList p tos (fun t => mkMove piece f t)
    if found then pure (true, p1)
    else probePairs p1 rest tos piece

/-- `has_king_move`.  `set.pop()` on the king's square set models as
the least square (`KeyError` on an empty set). -/
def has_king_move (p : Position) (rival_to_move : Rival) :
    Option (Bool × Position) :=
  let (attacks, piece) := match rival_to_move with
    | Rival.player => (p.player_king_attacks, Piece.wK)
    | Rival.computer => (p.computer_king_attacks, Piece.bK)
  let king_attacks := attacks &&&
    nnot (p.attacked_squares_of (switch_rival rival_to_move))
  if king_attacks = 0 then some (false, p)
  else do
    let king_from ← (get_squares_from_bitboard (p.pieceMap.get piece)).head?
    probeList p (get_squares_from_bitboard king_attacks)
      (fun t => mkMove piece king_from t)

def has_rook_move (p : Position) (rival_to_move : Rival) :
    Option (Bool × Position) :=
  let (attacks, piece) := match rival_to_move with
    | Rival.player => (p.player_rook_attacks, Piece.wR)
    | Rival.computer => (p.computer_rook_attacks, Piece.bR)
  if attacks = 0 then some (false, p)
  else probePairs p (get_squares_from_bitboard (p.pieceMap.get piece))
    (get_squares_from_bitboard attacks) piece

def has_queen_move (p : Position) (rival_to_move : Rival) :
    Option (Bool × Position) :=
  let (attacks, piece) := match rival_to_move with
    | Rival.player => (p.player_queen_attacks, Piece.wQ)
    | Rival.computer => (p.computer_queen_attacks, Piece.bQ)
  if attacks = 0 then some (false, p)
  else probePairs p (get_squares_from_bitboard (p.pieceMap.get piece))
    (get_squares_from_bitboard attacks) piece

def has_knight_move (p : Position) (rival_to_move : Rival) :
    Option (Bool × Position) :=
  let (attacks, piece) := match rival_to_move with
    | Rival.player => (p.player_knight_attacks, Piece.wN)
    | Rival.computer => (p.computer_knight_attacks, Piece.bN)
  if attacks = 0 then some (false, p)
  else probePairs p (get_squares_from_bitboard (p.pieceMap.get piece))
    (get_squares_from_bitboard attacks) piece

def has_bishop_move (p : Position) (rival_to_move : Rival) :
    Option (Bool × Position) :=
  let (attacks, piece) := match rival_to_move with
    | Rival.player => (p.player_bishop_attacks, Piece.wB)
    | Rival.computer => (p.computer_bishop_attacks, Piece.bB)
  if attacks = 0 then some (false, p)
  else probePairs p (get_squares_from_bitboard (p.pieceMap.get piece))
    (get_squares_from_bitboard attacks) piece

/-- `has_pawn_move` — note the AND of pawn attacks and pawn moves. -/
def has_pawn_move (p : Position) (rival_to_move : Rival) :
    Option (Bool × Position) :=
  let (all_pawn, piece) := match rival_to_move with
    | Rival.player => (p.player_pawn_attacks &&& p.player_pawn_moves, Piece.wP)
    | Rival.computer =>
      (p.computer_pawn_attacks &&& p.computer_pawn_moves, Piece.bP)
  if all_pawn = 0 then some (false, p)
  else probePairs p (get_squares_from_bitboard (p.pieceMap.get piece))
    (get_squares_from_bitboard all_pawn) piece

/-- `any_legal_moves`, threading the probe-mutated position. -/
def any_legal_moves (p : Position) (rival_to_move : Rival) :
    Option (Bool × Position) := do
  let (b, p) ← has_king_move p rival_to_move
  if b then pure (true, p) else do
  let (b, p) ← has_rook_move p rival_to_move
  if b then pure (true, p) else do
  let (b, p) ← has_queen_move p rival_to_move
  if b then pure (true, p) else do
  let (b, p) ← has_knight_move p rival_to_move
  if b then pure (true, p) else do
  let (b, p) ← has_bishop_move p rival_to_move
  if b then pure (true, p) else do
  let (b, p) ← has_pawn_move p rival_to_move
  if b then pure (true, p) else pure (false, p)

-- ---------------------------------------------------------------------
-- Draw detection (wake_position.py)
-- ---------------------------------------------------------------------

/-- `is_threefold_repetition` (FEN-record equality coincides with the
source's FEN-string equality). -/
def is_threefold_repetition (p : Position) : Bool :=
  2 ≤ p.position_history.count (generate_fen p)

/-- `is_insufficient_material`. -/
def is_insufficient_material (p : Position) : Bool :=
  let wPn := popCount64 p.pieceMap.wP
  let wRn := popCount64 p.pieceMap.wR
  let wNn := popCount64 p.pieceMap.wN
  let wBn := popCount64 p.pieceMap.wB
  let wQn := popCount64 p.pieceMap.wQ
  let bPn := popCount64 p.pieceMap.bP
  let bRn := popCount64 p.pieceMap.bR
  let bNn := popCount64 p.pieceMap.bN
  let bBn := popCount64 p.pieceMap.bB
  let bQn := popCount64 p.pieceMap.bQ
  if 0 < wPn ∨ 0 < wRn ∨ 0 < wQn ∨ 0 < bPn ∨ 0 < bRn ∨ 0 < bQn then false
  else
    let white_minor := wNn + wBn
    let black_minor := bNn + bBn
    if white_minor = 0 ∧ black_minor = 0 then true
    else if (white_minor ≤ 1 ∧ black_minor = 0) ∨
        (black_minor ≤ 1 ∧ white_minor = 0) then true
    else if wBn = 1 ∧ wNn = 0 ∧ white_minor = 1 ∧
        bBn = 1 ∧ bNn = 0 ∧ black_minor = 1 then
      match (get_squares_from_bitboard p.pieceMap.wB).head?,
          (get_squares_from_bitboard p.pieceMap.bB).head? with
      | some w, some b => (w / 8 + w % 8) % 2 = (b / 8 + b % 8) % 2
      | _, _ => false
    else false

-- ---------------------------------------------------------------------
-- wake_makemove (wake_position.py)
-- ---------------------------------------------------------------------

/-- `wake_makemove`: make, then classify.  A mover left in check hits
`quit()` (abnormal, `none`).  The probes inside `any_legal_moves`
mutate the position through their imperfect undos, so the final state
is the threaded one. -/
def wake_makemove (p0 : Position) (m0 : Move) :
    Option (MoveResult × Diff × Position) := do
  let (mr, d, p, m) ← update_wakegame_position p0 m0
  match mr with
  | some r => pure (r, d, p)
  | none =>
    if p.king_in_check.get m.rival_identity then none
    else do
      let other := switch_rival m.rival_identity
      let (any_moves, p) ← any_legal_moves p other
      if p.king_in_check.get other ∧ ¬ any_moves then
        pure (make_checkmate_result p, d, p)
      else if ¬ p.king_in_check.get other ∧ ¬ any_moves then
        pure (make_stalemate_result p, d, p)
      else if 100 ≤ p.halfmove_clock then pure (make_draw_result p, d, p)
      else if is_threefold_repetition p then pure (make_draw_result p, d, p)
      else if is_insufficient_material p then pure (make_draw_result p, d, p)
      else
        let d := { d with position_historyD := some p.position_history.length,
                          rival_to_moveD := some p.rival_to_move }
        let p := { p with
          position_history := p.position_history ++ [generate_fen p],
          rival_to_move := switch_rival p.rival_to_move }
        pure (make_move_result p, d, p)

-- ---------------------------------------------------------------------
-- Full move-list generation (wake_position.py)
-- ---------------------------------------------------------------------

/-- `is_viable_knight_move` (wake_position.py, module level). -/
def is_viable_knight_move (from_square to_square : Nat) : Bool :=
  ((from_square : Int) - to_square = 6 ∨ (from_square : Int) - to_square = 15 ∨
   (from_square : Int) - to_square = 17 ∨ (from_square : Int) - to_square = 10 ∨
   (from_square : Int) - to_square = -6 ∨
   (from_square : Int) - to_square = -15 ∨
   (from_square : Int) - to_square = -17 ∨
   (from_square : Int) - to_square = -10) ∧
  ¬ ((inFilesAB from_square ∧ inFilesGH to_square) ∨
     (inFilesGH from_square ∧ inFilesAB to_square))

/-- `is_viable_diagonal_move`. -/
def is_viable_diagonal_move (from_square to_square : Nat) : Bool :=
  ((from_square : Int) - to_square).natAbs % 7 = 0 ∨
  ((from_square : Int) - to_square).natAbs % 9 = 0

/-- `is_viable_vertical_move` (same file letter). -/
def is_viable_vertical_move (from_square to_square : Nat) : Bool :=
  from_square % 8 = to_square % 8

/-- `is_viable_horizontal_move` (same rank digit). -/
def is_viable_horizontal_move (from_square to_square : Nat) : Bool :=
  from_square / 8 = to_square / 8

/-- Evaluate a fixed from-square against each destination, collecting
the legal pairs (`all_king_moves` inner loop). -/
def collectList (p : Position) (tos : List Nat) (piece : Piece)
    (from_square : Nat) : Option (List (Nat × Nat) × Position) :=
  match tos with
  | [] => some ([], p)
  | t :: rest => do
    let (mr, p1) ← evaluate_move (mkMove piece from_square t) p
    let (l, p2) ← collectList p1 rest piece from_square
    pure (if ¬ mr.is_illegal_move then (from_square, t) :: l else l, p2)

/-- Evaluate each (from, to) pair that passes the viability filter,
collecting the legal ones. -/
def collectPairs (p : Position) (pairs : List (Nat × Nat)) (piece : Piece)
    (viable : Nat → Nat → Bool) : Option (List (Nat × Nat) × Position) :=
  match pairs with
  | [] => some ([], p)
  | (f, t) :: rest =>
    if viable f t then do
      let (mr, p1) ← evaluate_move (mkMove piece f t) p
      let (l, p2) ← collectPairs p1 rest piece viable
      pure (if ¬ mr.is_illegal_move then (f, t) :: l else l, p2)
    else collectPairs p rest piece viable

/-- The row-major cartesian product the nested `for` loops walk. -/
def pairProduct (froms tos : List Nat) : List (Nat × Nat) :=
  froms.flatMap (fun f => tos.map (fun t => (f, t)))

/-- `all_king_moves`. -/
def all_king_moves (p : Position) (rival_to_move : Rival) :
    Option (List (Nat × Nat) × Position) :=
  let (attacks, piece) := match rival_to_move with
    | Rival.player => (p.player_king_attacks, Piece.wK)
    | Rival.computer => (p.computer_king_attacks, Piece.bK)
  let king_attacks := attacks &&&
    nnot (p.attacked_squares_of (switch_rival rival_to_move))
  if king_attacks = 0 then some ([], p)
  else do
    let king_from ← (get_squares_from_bitboard (p.pieceMap.get piece)).head?
    collectList p (get_squares_from_bitboard king_attacks) piece king_from

/-- `all_rook_moves` (viability filter, then evaluate). -/
def all_rook_moves (p : Position) (rival_to_move : Rival) :
    Option (List (Nat × Nat) × Position) :=
  let (attacks, piece) := match rival_to_move with
    | Rival.player => (p.player_rook_attacks, Piece.wR)
    | Rival.computer => (p.computer_rook_attacks, Piece.bR)
  if attacks = 0 then some ([], p)
  else collectPairs p
    (pairProduct (get_squares_from_bitboard (p.pieceMap.get piece))
      (get_squares_from_bitboard attacks)) piece
    (fun f t => is_viable_vertical_move f t ∨ is_viable_horizontal_move f t)

/-- `all_queen_moves` (no viability filter). -/
def all_queen_moves (p : Position) (rival_to_move : Rival) :
    Option (List (Nat × Nat) × Position) :=
  let (attacks, piece) := match rival_to_move with
    | Rival.player => (p.player_queen_attacks, Piece.wQ)
    | Rival.computer => (p.computer_queen_attacks, Piece.bQ)
  if attacks = 0 then some ([], p)
  else collectPairs p
    (pairProduct (get_squares_from_bitboard (p.pieceMap.get piece))
      (get_squares_from_bitboard attacks)) piece (fun _ _ => true)

/-- `all_knight_moves`: `quit()` when the attack board is empty after
move 2. -/
def all_knight_moves (p : Position) (rival_to_move : Rival) :
    Option (List (Nat × Nat) × Position) :=
  let (attacks, piece) := match rival_to_move with
    | Rival.player => (p.player_knight_attacks, Piece.wN)
    | Rival.computer => (p.computer_knight_attacks, Piece.bN)
  if attacks = 0 ∧ 2 < p.halfmove then none
  else collectPairs p
    (pairProduct (get_squares_from_bitboard (p.pieceMap.get piece))
      (get_squares_from_bitboard attacks)) piece is_viable_knight_move

/-- `all_bishop_moves`. -/
def all_bishop_moves (p : Position) (rival_to_move : Rival) :
    Option (List (Nat × Nat) × Position) :=
  let (attacks, piece) := match rival_to_move with
    | Rival.player => (p.player_bishop_attacks, Piece.wB)
    | Rival.computer => (p.computer_bishop_attacks, Piece.bB)
  if attacks = 0 then some ([], p)
  else collectPairs p
    (pairProduct (get_squares_from_bitboard (p.pieceMap.get piece))
      (get_squares_from_bitboard attacks)) piece is_viable_diagonal_move

/-- `all_pawn_moves`: on an empty combined pawn board the source prints
and calls `quit()` — the process ends and no list is ever returned. -/
def all_pawn_moves (p : Position) (rival_to_move : Rival) :
    Option (List (Nat × Nat) × Position) :=
  let (all_pawn, piece) := match rival_to_move with
    | Rival.player => (p.player_pawn_attacks ||| p.player_pawn_moves, Piece.wP)
    | Rival.computer =>
      (p.computer_pawn_attacks ||| p.computer_pawn_moves, Piece.bP)
  if all_pawn = 0 then none
  else collectPairs p
    (pairProduct (get_squares_from_bitboard (p.pieceMap.get piece))
      (get_squares_from_bitboard all_pawn)) piece (fun _ _ => true)

/-- `all_legal_moves_list`: pawns, king, rooks, queens, knights,
bishops, concatenated in the source's order. -/
def all_legal_moves_list (p : Position) (rival_to_move : Rival) :
    Option (List (Nat × Nat) × Position) := do
  let (l1, p) ← all_pawn_moves p rival_to_move
  let (l2, p) ← all_king_moves p rival_to_move
  let (l3, p) ← all_rook_moves p rival_to_move
  let (l4, p) ← all_queen_moves p rival_to_move
  let (l5, p) ← all_knight_moves p rival_to_move
  let (l6, p) ← all_bishop_moves p rival_to_move
  pure (l1 ++ l2 ++ l3 ++ l4 ++ l5 ++ l6, p)

/-- The three-move run c2c4, Qd1a4, a2a4: the dead two-square blocking
check lets the a-pawn land on its own queen's square. -/
def c2_move_sequence : Option Position := do
  let (r1, _, p1) ← wake_makemove startPosition (mkMove Piece.wP 10 26)
  let (r2, _, p2) ← wake_makemove p1 (mkMove Piece.wQ 3 24)
  let (r3, _, p3) ← wake_makemove p2 (mkMove Piece.wP 8 24)
  if r1.is_illegal_move ∨ r2.is_illegal_move ∨ r3.is_illegal_move then none
  else pure p3

-- =====================================================================
-- Theorems
-- =====================================================================

/-- `switch_rival` needs the rival type, defined later; nothing here. -/

-- ---------------------------------------------------------------------
-- Correctness of the scanning loop
-- ---------------------------------------------------------------------

theorem testBit_iff_shift_mod (bb i : Nat) :
    bb.testBit i = true ↔ (bb >>> i) % 2 = 1 := by
  rw [Nat.testBit_to_div_mod]
  constructor
  · intro h
    simpa [Nat.shiftRight_eq_div_pow] using of_decide_eq_true h
  · intro h
    exact decide_eq_true (by simpa [Nat.shiftRight_eq_div_pow] using h)

theorem bitscan_forward_loop_spec (bb : Nat) :
    ∀ (fuel i j : Nat), i ≤ j → j < i + fuel → bb.testBit j = true →
    (∀ k, i ≤ k → k < j → bb.testBit k = false) →
    bitscan_forward_loop bb fuel i = some j := by
  intro fuel
  induction fuel with
  | zero => intro i j hij hj _ _; omega
  | succ n ih =>
    intro i j hij hj hbit hmin
    unfold bitscan_forward_loop
    by_cases hcase : (bb >>> i) % 2 = 1
    · have hi : bb.testBit i = true := (testBit_iff_shift_mod bb i).mpr hcase
      have heq : i = j := by
        by_contra hne
        have hlt : i < j := lt_of_le_of_ne hij hne
        have := hmin i le_rfl hlt
        rw [hi] at this; exact Bool.true_eq_false.mp this
      subst heq
      simp [hcase]
    · have hne : i ≠ j := by
        intro heq
        exact hcase ((testBit_iff_shift_mod bb i).mp (by rw [heq]; exact hbit))
      have hij2 : i + 1 ≤ j := by omega
      have := ih (i + 1) j hij2 (by omega) hbit
        (fun k hk1 hk2 => hmin k (by omega) hk2)
      simp [hcase, this]

theorem bitscan_forward_loop_none (bb : Nat) :
    ∀ (fuel i : Nat), (∀ k, i ≤ k → k < i + fuel → bb.testBit k = false) →
    bitscan_forward_loop bb fuel i = none := by
  intro fuel
  induction fuel with
  | zero => intro i _; rfl
  | succ n ih =>
    intro i hall
    unfold bitscan_forward_loop
    have h0 : bb.testBit i = false := hall i le_rfl (by omega)
    have hcase : ¬ (bb >>> i) % 2 = 1 := by
      intro hc
      rw [(testBit_iff_shift_mod bb i).mpr hc] at h0
      exact Bool.true_eq_false.mp h0
    simp [hcase]
    exact ih (i + 1) (fun k hk1 hk2 => hall k (by omega) (by omega))

/-- A nonzero bitboard below `2 ^ 64` has a least set bit, and it is
below 64. -/
theorem exists_least_testBit (bb : Nat) (hne : bb ≠ 0) (hlt : bb < 2 ^ 64) :
    ∃ j, j < 64 ∧ bb.testBit j = true ∧ ∀ k, k < j → bb.testBit k = false := by
  have hex : ∃ j, bb.testBit j = true := by
    by_contra hno
    push_neg at hno
    exact hne (Nat.eq_of_testBit_eq (fun j => by
      simp [Bool.eq_false_iff.mpr (fun h => hno j h)]))
  have hj0 : bb.testBit (Nat.find hex) = true := Nat.find_spec hex
  have hmin : ∀ k, k < Nat.find hex → ¬ bb.testBit k = true :=
    fun k hk => Nat.find_min hex hk
  refine ⟨Nat.find hex, ?_, hj0, ?_⟩
  · by_contra hge
    push_neg at hge
    have : bb < 2 ^ Nat.find hex :=
      lt_of_lt_of_le hlt (Nat.pow_le_pow_right (by omega) hge)
    rw [Nat.testBit_lt_two_pow this] at hj0
    exact Bool.false_ne_true hj0
  · intro k hk
    exact Bool.eq_false_iff.mpr (fun h => hmin k hk h)

/-- `bitscan_forward` finds the least set bit of a bitboard, provided bit 0
is clear (the scanning loop starts at index 1). -/
theorem bitscan_forward_least (bb : Nat) (hlt : bb < 2 ^ 64) (hne : bb ≠ 0)
    (h0 : bb.testBit 0 = false) :
    ∃ i, bitscan_forward bb = some i ∧ 1 ≤ i ∧ i ≤ 63 ∧
      bb.testBit i = true ∧ ∀ j, j < i → bb.testBit j = false := by
  obtain ⟨j, hj64, hjbit, hjmin⟩ := exists_least_testBit bb hne hlt
  have hj1 : 1 ≤ j := by
    rcases Nat.eq_zero_or_pos j with h | h
    · rw [h] at hjbit; rw [h0] at hjbit; exact absurd hjbit Bool.false_ne_true
    · exact h
  refine ⟨j, ?_, hj1, by omega, hjbit, hjmin⟩
  exact bitscan_forward_loop_spec bb 63 1 j hj1 (by omega) hjbit
    (fun k _ hk2 => hjmin k hk2)

/-- Correctness of the byte-level lookup in `bitscan_reverse`. -/
theorem lookup_msb_spec (b : Nat) (h1 : 0 < b) (h2 : b < 256) :
    2 ^ lookup_most_significant_1_bit b ≤ b ∧
      b < 2 ^ (lookup_most_significant_1_bit b + 1) ∧
      lookup_most_significant_1_bit b ≤ 7 := by
  unfold lookup_most_significant_1_bit
  split_ifs <;> norm_num <;> omega

/-- Lifting the byte-level most-significant-bit bounds through a right
shift by `s`. -/
theorem msb_from_byte (bb s : Nat) (hpos : 0 < bb >>> s) (hlt : bb >>> s < 256) :
    2 ^ (s + lookup_most_significant_1_bit (bb >>> s)) ≤ bb ∧
      bb < 2 ^ (s + lookup_most_significant_1_bit (bb >>> s) + 1) := by
  obtain ⟨hlo, hhi, _⟩ := lookup_msb_spec (bb >>> s) hpos hlt
  set L := lookup_most_significant_1_bit (bb >>> s) with hL
  rw [Nat.shiftRight_eq_div_pow] at hlo hhi
  have hp : 0 < 2 ^ s := Nat.pos_pow_of_pos s (by omega)
  constructor
  · have h1 := (Nat.le_div_iff_mul_le hp).mp hlo
    calc 2 ^ (s + L) = 2 ^ L * 2 ^ s := by rw [pow_add, Nat.mul_comm]
      _ ≤ bb := h1
  · have h2 := (Nat.div_lt_iff_lt_mul hp).mp hhi
    calc bb < 2 ^ (L + 1) * 2 ^ s := h2
      _ = 2 ^ (s + L + 1) := by rw [← pow_add]; congr 1; omega

theorem shiftRight_pos (x t : Nat) (h : 2 ^ t - 1 < x) : 0 < x >>> t := by
  rw [Nat.shiftRight_eq_div_pow]
  have hp : 0 < 2 ^ t := Nat.pos_pow_of_pos t (by omega)
  exact (Nat.one_le_div_iff hp).mpr (by omega)

theorem shiftRight_ub (x t a : Nat) (h : x < 2 ^ (a + t)) : x >>> t < 2 ^ a := by
  rw [Nat.shiftRight_eq_div_pow]
  have hp : 0 < 2 ^ t := Nat.pos_pow_of_pos t (by omega)
  exact (Nat.div_lt_iff_lt_mul hp).mpr (by rw [← pow_add] at *; omega)

/-- Packaging for the case analysis of `bitscan_reverse`. -/
theorem bitscan_reverse_conclude (bb s : Nat) (hs : s ≤ 56)
    (hpos : 0 < bb >>> s) (hb : bb >>> s < 256) :
    ∃ k, some (s + lookup_most_significant_1_bit (bb >>> s)) = some k ∧
      k ≤ 63 ∧ 2 ^ k ≤ bb ∧ bb < 2 ^ (k + 1) := by
  obtain ⟨l1, l2⟩ := msb_from_byte bb s hpos hb
  have hk7 : lookup_most_significant_1_bit (bb >>> s) ≤ 7 :=
    (lookup_msb_spec _ hpos hb).2.2
  exact ⟨_, rfl, by omega, l1, l2⟩

/-- `bitscan_reverse` on a nonzero 64-bit bitboard returns the index of the
most significant set bit; it returns `none` (raises) exactly on zero. -/
theorem bitscan_reverse_msb (bb : Nat) (h0 : bb ≠ 0) (hlt : bb < 2 ^ 64) :
    ∃ k, bitscan_reverse bb = some k ∧ k ≤ 63 ∧ 2 ^ k ≤ bb ∧ bb < 2 ^ (k + 1) := by
  have hshift : ∀ a b : Nat, (bb >>> a) >>> b = bb >>> (a + b) := by
    intro a b; rw [Nat.shiftRight_add]
  have hbb0 : bb = bb >>> 0 := (Nat.shiftRight_zero).symm
  unfold bitscan_reverse
  rw [if_neg h0]
  by_cases h32 : bb > 0xFFFFFFFF <;>
    simp only [h32, if_true, if_false, reduceIte]
  · by_cases h16 : bb >>> 32 > 0xFFFF <;>
      simp only [h16, if_true, if_false, reduceIte]
    · rw [hshift]
      by_cases h8 : bb >>> 48 > 0xFF <;>
        simp only [h8, if_true, if_false, reduceIte]
      · rw [hshift]
        refine bitscan_reverse_conclude bb 56 (by omega) ?_ ?_
        · rw [← hshift 48 8]; exact shiftRight_pos _ 8 (by norm_num at h8 ⊢; omega)
        · rw [← hshift 48 8]
          exact shiftRight_ub _ 8 8 (shiftRight_ub bb 48 16 (by norm_num at hlt ⊢; omega))
      · refine bitscan_reverse_conclude bb 48 (by omega) ?_ (by omega)
        rw [← hshift 32 16]; exact shiftRight_pos _ 16 (by norm_num at h16 ⊢; omega)
    · by_cases h8 : bb >>> 32 > 0xFF <;>
        simp only [h8, if_true, if_false, reduceIte]
      · rw [hshift]
        refine bitscan_reverse_conclude bb 40 (by omega) ?_ ?_
        · rw [← hshift 32 8]; exact shiftRight_pos _ 8 (by norm_num at h8 ⊢; omega)
        · rw [← hshift 32 8]; exact shiftRight_ub _ 8 8 (by norm_num at h16 ⊢; omega)
      · refine bitscan_reverse_conclude bb 32 (by omega) ?_ (by omega)
        exact shiftRight_pos _ 32 (by norm_num at h32 ⊢; omega)
  · by_cases h16 : bb > 0xFFFF <;>
      simp only [h16, if_true, if_false, reduceIte]
    · by_cases h8 : bb >>> 16 > 0xFF <;>
        simp only [h8, if_true, if_false, reduceIte]
      · rw [hshift]
        refine bitscan_reverse_conclude bb 24 (by omega) ?_ ?_
        · rw [← hshift 16 8]; exact shiftRight_pos _ 8 (by norm_num at h8 ⊢; omega)
        · rw [← hshift 16 8]
          exact shiftRight_ub _ 8 8 (shiftRight_ub bb 16 16 (by norm_num at h32 ⊢; omega))
      · refine bitscan_reverse_conclude bb 16 (by omega) ?_ (by omega)
        exact shiftRight_pos _ 16 (by norm_num at h16 ⊢; omega)
    · by_cases h8 : bb > 0xFF <;>
        simp only [h8, if_true, if_false, reduceIte]
      · refine bitscan_reverse_conclude bb 8 (by omega) ?_ ?_
        · exact shiftRight_pos _ 8 (by norm_num at h8 ⊢; omega)
        · exact shiftRight_ub _ 8 8 (by norm_num at h16 ⊢; omega)
      · rw [hbb0]
        refine bitscan_reverse_conclude bb 0 (by omega) ?_ (by rw [← hbb0]; omega)
        rw [← hbb0]; omega

/-- `bitscan_reverse` returns `none` (the Python code raises) exactly on
the zero bitboard. -/
theorem bitscan_reverse_none_iff (bb : Nat) : bitscan_reverse bb = none ↔ bb = 0 := by
  constructor
  · intro h
    by_contra hne
    unfold bitscan_reverse at h
    rw [if_neg hne] at h
    simp at h
  · intro h; rw [h]; rfl

theorem testBit_bbOf (l : List Nat) (i : Nat) :
    (bbOf l).testBit i = decide (i ∈ l) := by
  induction l with
  | nil => simp [bbOf]
  | cons a t ih =>
    simp only [bbOf, List.foldr] at *
    rw [Nat.testBit_lor, ih, Nat.shiftLeft_eq, one_mul, Nat.testBit_two_pow]
    by_cases h1 : i = a
    · subst h1; simp
    · have h2 : ¬ a = i := fun h => h1 h.symm
      simp [List.mem_cons, h1, h2]

theorem bbOf_lt (l : List Nat) (h : ∀ x ∈ l, x < 64) : bbOf l < 2 ^ 64 := by
  induction l with
  | nil => simp [bbOf]
  | cons a t ih =>
    simp only [bbOf, List.foldr]
    have h1 : bbOf t < 2 ^ 64 := ih (fun x hx => h x (List.mem_cons_of_mem a hx))
    have h2 : (1 <<< a) < 2 ^ 64 := by
      rw [Nat.shiftLeft_eq, one_mul]
      exact Nat.pow_lt_pow_right (by omega) (h a (List.mem_cons_self a t))
    exact Nat.or_lt_two_pow h1 h2

theorem iterStep_add (next : Nat → Option Nat) (j k s : Nat) :
    iterStep next (j + k) s = (iterStep next j s).bind (iterStep next k) := by
  induction j generalizing s with
  | zero => simp [iterStep]
  | succ n ih =>
    have : n + 1 + k = (n + k) + 1 := by omega
    rw [this]
    simp only [iterStep]
    cases next s with
    | none => rfl
    | some t => simp only [Option.some_bind]; exact ih t

theorem mem_rayListAux (next : Nat → Option Nat) :
    ∀ (fuel s x : Nat),
      x ∈ rayListAux next fuel s ↔
        ∃ k, 1 ≤ k ∧ k ≤ fuel ∧ iterStep next k s = some x := by
  intro fuel
  induction fuel with
  | zero =>
    intro s x
    simp only [rayListAux, List.not_mem_nil, false_iff]
    rintro ⟨k, hk1, hk2, _⟩; omega
  | succ n ih =>
    intro s x
    simp only [rayListAux]
    cases hnext : next s with
    | none =>
      simp only [List.not_mem_nil, false_iff]
      rintro ⟨k, hk1, hk2, hit⟩
      rcases k with _ | m
      · omega
      · simp [iterStep, hnext] at hit
    | some t =>
      simp only [List.mem_cons]
      constructor
      · rintro (rfl | hmem)
        · exact ⟨1, le_rfl, by omega, by simp [iterStep, hnext]⟩
        · obtain ⟨k, hk1, hk2, hit⟩ := (ih t x).mp hmem
          exact ⟨k + 1, by omega, by omega, by simp [iterStep, hnext]; exact hit⟩
      · rintro ⟨k, hk1, hk2, hit⟩
        rcases k with _ | m
        · omega
        · simp only [iterStep, hnext, Option.some_bind] at hit
          rcases Nat.eq_zero_or_pos m with rfl | hm
          · left; simpa [iterStep] using hit.symm
          · right; exact (ih t x).mpr ⟨m, hm, by omega, hit⟩

theorem iterStep_strict_mono (next : Nat → Option Nat) (hmono : StepMono next) :
    ∀ (k s x : Nat), 1 ≤ k → iterStep next k s = some x → s < x := by
  intro k
  induction k with
  | zero => omega
  | succ n ih =>
    intro s x _ hit
    simp only [iterStep] at hit
    cases hnext : next s with
    | none => rw [hnext] at hit; simp at hit
    | some t =>
      rw [hnext] at hit
      simp only [Option.some_bind] at hit
      rcases Nat.eq_zero_or_pos n with rfl | hn
      · simp only [iterStep, Option.some_inj] at hit
        rw [← hit]; exact hmono s t hnext
      · exact lt_trans (hmono s t hnext) (ih t x hn hit)

theorem iterStep_le63 (next : Nat → Option Nat) (hbound : StepBound next) :
    ∀ (k s x : Nat), 1 ≤ k → iterStep next k s = some x → x ≤ 63 := by
  intro k
  induction k with
  | zero => omega
  | succ n ih =>
    intro s x _ hit
    simp only [iterStep] at hit
    cases hnext : next s with
    | none => rw [hnext] at hit; simp at hit
    | some t =>
      rw [hnext] at hit
      simp only [Option.some_bind] at hit
      rcases Nat.eq_zero_or_pos n with rfl | hn
      · simp only [iterStep, Option.some_inj] at hit
        rw [← hit]; exact hbound s t hnext
      · exact ih t x hn hit

/-- The square grows by at least one per step, so the fuel bound 64 never
bites for squares on the board. -/
theorem iterStep_ge (next : Nat → Option Nat) (hmono : StepMono next) :
    ∀ (k s x : Nat), iterStep next k s = some x → s + k ≤ x := by
  intro k
  induction k with
  | zero => intro s x hit; simp only [iterStep, Option.some_inj] at hit; omega
  | succ n ih =>
    intro s x hit
    simp only [iterStep] at hit
    cases hnext : next s with
    | none => rw [hnext] at hit; simp at hit
    | some t =>
      rw [hnext] at hit
      simp only [Option.some_bind] at hit
      have h1 := hmono s t hnext
      have h2 := ih t x hit
      omega

theorem mem_rayList (next : Nat → Option Nat) (hmono : StepMono next)
    (hbound : StepBound next) (s x : Nat) :
    x ∈ rayList next s ↔ ∃ k, 1 ≤ k ∧ iterStep next k s = some x := by
  rw [rayList, mem_rayListAux]
  constructor
  · rintro ⟨k, h1, _, h3⟩; exact ⟨k, h1, h3⟩
  · rintro ⟨k, h1, h3⟩
    refine ⟨k, h1, ?_, h3⟩
    have := iterStep_ge next hmono k s x h3
    have := iterStep_le63 next hbound k s x h1 h3
    omega

/-- Elements of a forward ray are strictly beyond the source (so never
square 0, which is why `bitscan_forward`'s skipping of bit 0 is harmless
in the sliding-move computation). -/
theorem mem_rayList_gt (next : Nat → Option Nat) (hmono : StepMono next)
    (hbound : StepBound next) (s x : Nat) (hx : x ∈ rayList next s) : s < x := by
  obtain ⟨k, hk1, hit⟩ := (mem_rayList next hmono hbound s x).mp hx
  exact iterStep_strict_mono next hmono k s x hk1 hit

theorem mem_rayList_le63 (next : Nat → Option Nat) (hmono : StepMono next)
    (hbound : StepBound next) (s x : Nat) (hx : x ∈ rayList next s) : x ≤ 63 := by
  obtain ⟨k, hk1, hit⟩ := (mem_rayList next hmono hbound s x).mp hx
  exact iterStep_le63 next hbound k s x hk1 hit

/-- Nesting: for a square `b` on the forward ray from `s`, the ray from `b`
is exactly the part of the ray from `s` strictly beyond `b`. -/
theorem mem_rayList_nested (next : Nat → Option Nat) (hmono : StepMono next)
    (hbound : StepBound next) (s b x : Nat) (hb : b ∈ rayList next s) :
    x ∈ rayList next b ↔ x ∈ rayList next s ∧ b < x := by
  obtain ⟨j, hj1, hjit⟩ := (mem_rayList next hmono hbound s b).mp hb
  constructor
  · intro hx
    obtain ⟨m, hm1, hmit⟩ := (mem_rayList next hmono hbound b x).mp hx
    refine ⟨?_, iterStep_strict_mono next hmono m b x hm1 hmit⟩
    refine (mem_rayList next hmono hbound s x).mpr ⟨j + m, by omega, ?_⟩
    rw [iterStep_add, hjit, Option.some_bind]; exact hmit
  · rintro ⟨hx, hbx⟩
    obtain ⟨k, hk1, hkit⟩ := (mem_rayList next hmono hbound s x).mp hx
    have hkj : j < k := by
      rcases Nat.lt_or_ge j k with h | h
      · exact h
      · exfalso
        rcases Nat.eq_or_lt_of_le h with rfl | h2
        · rw [hjit] at hkit
          have : b = x := by injection hkit
          omega
        · obtain ⟨m, rfl⟩ : ∃ m, j = k + m := ⟨j - k, by omega⟩
          rw [iterStep_add, hkit, Option.some_bind] at hjit
          have hm : 1 ≤ m := by omega
          have := iterStep_strict_mono next hmono m x b hm hjit
          omega
    refine (mem_rayList next hmono hbound b x).mpr ⟨k - j, by omega, ?_⟩
    have hsplit : iterStep next (j + (k - j)) s = some x := by
      rw [show j + (k - j) = k by omega]; exact hkit
    rw [iterStep_add, hjit, Option.some_bind] at hsplit
    exact hsplit

theorem stepNorth_mono : StepMono stepNorth := by
  intro s t h; unfold stepNorth at h; split_ifs at h <;> simp_all <;> omega

theorem stepNorth_bound : StepBound stepNorth := by
  intro s t h; unfold stepNorth at h; split_ifs at h <;> simp_all <;> omega

theorem stepEast_mono : StepMono stepEast := by
  intro s t h; unfold stepEast at h; split_ifs at h <;> simp_all <;> omega

theorem stepEast_bound : StepBound stepEast := by
  intro s t h; unfold stepEast at h; split_ifs at h <;> simp_all <;> omega

theorem stepNortheast_mono : StepMono stepNortheast := by
  intro s t h; unfold stepNortheast at h; split_ifs at h <;> simp_all <;> omega

theorem stepNortheast_bound : StepBound stepNortheast := by
  intro s t h; unfold stepNortheast at h; split_ifs at h <;> simp_all <;> omega

theorem stepNorthwest_mono : StepMono stepNorthwest := by
  intro s t h; unfold stepNorthwest at h; split_ifs at h <;> simp_all <;> omega

theorem stepNorthwest_bound : StepBound stepNorthwest := by
  intro s t h; unfold stepNorthwest at h; split_ifs at h <;> simp_all <;> omega

theorem iterStep_strict_anti (next : Nat → Option Nat) (hanti : StepAnti next) :
    ∀ (k s x : Nat), 1 ≤ k → iterStep next k s = some x → x < s := by
  intro k
  induction k with
  | zero => omega
  | succ n ih =>
    intro s x _ hit
    simp only [iterStep] at hit
    cases hnext : next s with
    | none => rw [hnext] at hit; simp at hit
    | some t =>
      rw [hnext] at hit
      simp only [Option.some_bind] at hit
      rcases Nat.eq_zero_or_pos n with rfl | hn
      · simp only [iterStep, Option.some_inj] at hit
        rw [← hit]; exact hanti s t hnext
      · exact lt_trans (ih t x hn hit) (hanti s t hnext)

theorem iterStep_ge_anti (next : Nat → Option Nat) (hanti : StepAnti next) :
    ∀ (k s x : Nat), iterStep next k s = some x → x + k ≤ s := by
  intro k
  induction k with
  | zero => intro s x hit; simp only [iterStep, Option.some_inj] at hit; omega
  | succ n ih =>
    intro s x hit
    simp only [iterStep] at hit
    cases hnext : next s with
    | none => rw [hnext] at hit; simp at hit
    | some t =>
      rw [hnext] at hit
      simp only [Option.some_bind] at hit
      have h1 := hanti s t hnext
      have h2 := ih t x hit
      omega

theorem mem_rayList_anti (next : Nat → Option Nat) (hanti : StepAnti next)
    (s x : Nat) (hs : s ≤ 63) :
    x ∈ rayList next s ↔ ∃ k, 1 ≤ k ∧ iterStep next k s = some x := by
  rw [rayList, mem_rayListAux]
  constructor
  · rintro ⟨k, h1, _, h3⟩; exact ⟨k, h1, h3⟩
  · rintro ⟨k, h1, h3⟩
    refine ⟨k, h1, ?_, h3⟩
    have := iterStep_ge_anti next hanti k s x h3
    omega

theorem mem_rayList_lt_anti (next : Nat → Option Nat) (hanti : StepAnti next)
    (s x : Nat) (hs : s ≤ 63) (hx : x ∈ rayList next s) : x < s := by
  obtain ⟨k, hk1, hit⟩ := (mem_rayList_anti next hanti s x hs).mp hx
  exact iterStep_strict_anti next hanti k s x hk1 hit

/-- Nesting for a backward ray: for a square `b` on the ray from `s`, the
ray from `b` is exactly the part of the ray from `s` strictly below `b`. -/
theorem mem_rayList_nested_anti (next : Nat → Option Nat) (hanti : StepAnti next)
    (s b x : Nat) (hs : s ≤ 63) (hb : b ∈ rayList next s) :
    x ∈ rayList next b ↔ x ∈ rayList next s ∧ x < b := by
  have hbs : b < s := mem_rayList_lt_anti next hanti s b hs hb
  have hb63 : b ≤ 63 := by omega
  obtain ⟨j, hj1, hjit⟩ := (mem_rayList_anti next hanti s b hs).mp hb
  constructor
  · intro hx
    obtain ⟨m, hm1, hmit⟩ := (mem_rayList_anti next hanti b x hb63).mp hx
    refine ⟨?_, iterStep_strict_anti next hanti m b x hm1 hmit⟩
    refine (mem_rayList_anti next hanti s x hs).mpr ⟨j + m, by omega, ?_⟩
    rw [iterStep_add, hjit, Option.some_bind]; exact hmit
  · rintro ⟨hx, hbx⟩
    obtain ⟨k, hk1, hkit⟩ := (mem_rayList_anti next hanti s x hs).mp hx
    have hkj : j < k := by
      rcases Nat.lt_or_ge j k with h | h
      · exact h
      · exfalso
        rcases Nat.eq_or_lt_of_le h with rfl | h2
        · rw [hjit] at hkit
          have : b = x := by injection hkit
          omega
        · obtain ⟨m, rfl⟩ : ∃ m, j = k + m := ⟨j - k, by omega⟩
          rw [iterStep_add, hkit, Option.some_bind] at hjit
          have hm : 1 ≤ m := by omega
          have := iterStep_strict_anti next hanti m x b hm hjit
          omega
    refine (mem_rayList_anti next hanti b x hb63).mpr ⟨k - j, by omega, ?_⟩
    have hsplit : iterStep next (j + (k - j)) s = some x := by
      rw [show j + (k - j) = k by omega]; exact hkit
    rw [iterStep_add, hjit, Option.some_bind] at hsplit
    exact hsplit

theorem stepSouth_anti : StepAnti stepSouth := by
  intro s t h; unfold stepSouth at h; split_ifs at h <;> simp_all <;> omega

theorem stepWest_anti : StepAnti stepWest := by
  intro s t h; unfold stepWest at h; split_ifs at h <;> simp_all <;> omega

theorem stepSoutheast_anti : StepAnti stepSoutheast := by
  intro s t h; unfold stepSoutheast at h; split_ifs at h <;> simp_all <;> omega

theorem stepSouthwest_anti : StepAnti stepSouthwest := by
  intro s t h; unfold stepSouthwest at h; split_ifs at h <;> simp_all <;> omega

/-- A bitboard whose value lies in `[2 ^ k, 2 ^ (k + 1))` has `k` as its
greatest set bit. -/
theorem msb_greatest (bb k : Nat) (hlo : 2 ^ k ≤ bb) (hhi : bb < 2 ^ (k + 1)) :
    bb.testBit k = true ∧ ∀ j, k < j → bb.testBit j = false := by
  constructor
  · have hdiv : bb / 2 ^ k = 1 := by
      apply Nat.div_eq_of_lt_le (by omega)
      calc bb < 2 ^ (k + 1) := hhi
        _ = 2 * 2 ^ k := by rw [pow_succ, Nat.mul_comm]
  -- hence the bit is odd
    rw [Nat.testBit_to_div_mod, hdiv]
    rfl
  · intro j hj
    exact Nat.testBit_lt_two_pow
      (lt_of_lt_of_le hhi (Nat.pow_le_pow_right (by omega) (by omega)))

/-- Characterization of one forward direction: a square is reachable iff
it is on the open-board ray and no nearer ray square is occupied.  In
particular the nearest blocker itself stays reachable and everything
beyond it is cut. -/
theorem forward_ray_moves_char (next : Nat → Option Nat) (hmono : StepMono next)
    (hbound : StepBound next) (rayFn : Nat → Nat)
    (hray : ∀ t, rayFn t = bbOf (rayList next t)) (occ s x : Nat) :
    (forward_ray_moves rayFn occ s).testBit x = true ↔
      (x ∈ rayList next s ∧
        ∀ y ∈ rayList next s, y < x → occ.testBit y = false) := by
  have hraybb : ∀ t y, (rayFn t).testBit y = decide (y ∈ rayList next t) :=
    fun t y => by rw [hray]; exact testBit_bbOf _ _
  unfold forward_ray_moves
  by_cases hzero : occ &&& rayFn s = 0
  · rw [if_pos hzero]
    constructor
    · intro h
      have hx : x ∈ rayList next s := of_decide_eq_true (by rw [← hraybb s x]; exact h)
      refine ⟨hx, ?_⟩
      intro y hy _
      have hz : (occ &&& rayFn s).testBit y = false := by rw [hzero]; simp
      rw [Nat.testBit_and] at hz
      have hyr : (rayFn s).testBit y = true := by
        rw [hraybb]; exact decide_eq_true hy
      rw [hyr, Bool.and_true] at hz
      exact hz
    · rintro ⟨hx, _⟩
      rw [hraybb]; exact decide_eq_true hx
  · rw [if_neg hzero]
    have hinterlt : occ &&& rayFn s < 2 ^ 64 := by
      apply Nat.and_lt_two_pow
      rw [hray]
      exact bbOf_lt _ (fun z hz => by
        have := mem_rayList_le63 next hmono hbound s z hz; omega)
    have hbit0 : (occ &&& rayFn s).testBit 0 = false := by
      rw [Nat.testBit_and]
      have hr0 : (rayFn s).testBit 0 = false := by
        rw [hraybb]
        apply decide_eq_false
        intro hmem
        have := mem_rayList_gt next hmono hbound s 0 hmem; omega
      rw [hr0, Bool.and_false]
    obtain ⟨b, hbscan, hb1, hb63, hbbit, hbmin⟩ :=
      bitscan_forward_least (occ &&& rayFn s) hinterlt hzero hbit0
    rw [hbscan]
    have hbray : b ∈ rayList next s := by
      rw [Nat.testBit_and] at hbbit
      have h2 : (rayFn s).testBit b = true := by
        cases hc : (rayFn s).testBit b
        · rw [hc, Bool.and_false] at hbbit; exact absurd hbbit Bool.false_ne_true
        · rfl
      rw [hraybb] at h2; exact of_decide_eq_true h2
    have hbocc : occ.testBit b = true := by
      rw [Nat.testBit_and] at hbbit
      cases hc : occ.testBit b
      · rw [hc, Bool.false_and] at hbbit; exact absurd hbbit Bool.false_ne_true
      · rfl
    show (rayFn s ^^^ rayFn b).testBit x = true ↔ _
    rw [Nat.testBit_xor, hraybb, hraybb]
    have hnest := mem_rayList_nested next hmono hbound s b x hbray
    constructor
    · intro h
      have hxs : x ∈ rayList next s := by
        by_contra hxs
        have hxb : x ∉ rayList next b := fun hc => hxs (hnest.mp hc).1
        rw [decide_eq_false hxs, decide_eq_false hxb] at h
        exact absurd h Bool.false_ne_true
      have hxb : x ∉ rayList next b := by
        intro hxb
        rw [decide_eq_true hxs, decide_eq_true hxb] at h
        exact absurd h Bool.false_ne_true
      have hxle : ¬ b < x := fun hc => hxb (hnest.mpr ⟨hxs, hc⟩)
      refine ⟨hxs, ?_⟩
      intro y hy hylt
      cases hc : occ.testBit y
      · rfl
      · exfalso
        have hyinter : (occ &&& rayFn s).testBit y = true := by
          rw [Nat.testBit_and, hc, hraybb, decide_eq_true hy]; rfl
        have := hbmin y (by omega)
        rw [hyinter] at this
        exact Bool.true_eq_false.mp this
    · rintro ⟨hxs, hall⟩
      have hxle : x ≤ b := by
        by_contra hgt
        have := hall b hbray (by omega)
        rw [hbocc] at this
        exact Bool.true_eq_false.mp this
      have hxb : x ∉ rayList next b := fun hc => by
        have := (hnest.mp hc).2; omega
      rw [decide_eq_true hxs, decide_eq_false hxb]; rfl

/-- Characterization of one backward direction: a square is reachable iff
it is on the open-board ray and no nearer ray square (larger index, since
backward rays run toward smaller indices) is occupied. -/
theorem reverse_ray_moves_char (next : Nat → Option Nat) (hanti : StepAnti next)
    (rayFn : Nat → Nat)
    (hray : ∀ t, rayFn t = bbOf (rayList next t)) (occ s x : Nat) (hs : s ≤ 63) :
    (reverse_ray_moves rayFn occ s).testBit x = true ↔
      (x ∈ rayList next s ∧
        ∀ y ∈ rayList next s, x < y → occ.testBit y = false) := by
  have hraybb : ∀ t y, (rayFn t).testBit y = decide (y ∈ rayList next t) :=
    fun t y => by rw [hray]; exact testBit_bbOf _ _
  unfold reverse_ray_moves
  by_cases hzero : occ &&& rayFn s = 0
  · rw [if_pos hzero]
    constructor
    · intro h
      have hx : x ∈ rayList next s := of_decide_eq_true (by rw [← hraybb s x]; exact h)
      refine ⟨hx, ?_⟩
      intro y hy _
      have hz : (occ &&& rayFn s).testBit y = false := by rw [hzero]; simp
      rw [Nat.testBit_and] at hz
      have hyr : (rayFn s).testBit y = true := by
        rw [hraybb]; exact decide_eq_true hy
      rw [hyr, Bool.and_true] at hz
      exact hz
    · rintro ⟨hx, _⟩
      rw [hraybb]; exact decide_eq_true hx
  · rw [if_neg hzero]
    have hinterlt : occ &&& rayFn s < 2 ^ 64 := by
      apply Nat.and_lt_two_pow
      rw [hray]
      exact bbOf_lt _ (fun z hz => by
        have := mem_rayList_lt_anti next hanti s z hs hz; omega)
    obtain ⟨b, hbscan, hb63, hblo, hbhi⟩ :=
      bitscan_reverse_msb (occ &&& rayFn s) hzero hinterlt
    obtain ⟨hbbit, hbmax⟩ := msb_greatest _ b hblo hbhi
    rw [hbscan]
    have hbray : b ∈ rayList next s := by
      rw [Nat.testBit_and] at hbbit
      have h2 : (rayFn s).testBit b = true := by
        cases hc : (rayFn s).testBit b
        · rw [hc, Bool.and_false] at hbbit; exact absurd hbbit Bool.false_ne_true
        · rfl
      rw [hraybb] at h2; exact of_decide_eq_true h2
    have hbocc : occ.testBit b = true := by
      rw [Nat.testBit_and] at hbbit
      cases hc : occ.testBit b
      · rw [hc, Bool.false_and] at hbbit; exact absurd hbbit Bool.false_ne_true
      · rfl
    show (rayFn s ^^^ rayFn b).testBit x = true ↔ _
    rw [Nat.testBit_xor, hraybb, hraybb]
    have hnest := mem_rayList_nested_anti next hanti s b x hs hbray
    constructor
    · intro h
      have hxs : x ∈ rayList next s := by
        by_contra hxs
        have hxb : x ∉ rayList next b := fun hc => hxs (hnest.mp hc).1
        rw [decide_eq_false hxs, decide_eq_false hxb] at h
        exact absurd h Bool.false_ne_true
      have hxb : x ∉ rayList next b := by
        intro hxb
        rw [decide_eq_true hxs, decide_eq_true hxb] at h
        exact absurd h Bool.false_ne_true
      have hxge : ¬ x < b := fun hc => hxb (hnest.mpr ⟨hxs, hc⟩)
      refine ⟨hxs, ?_⟩
      intro y hy hylt
      cases hc : occ.testBit y
      · rfl
      · exfalso
        have hyinter : (occ &&& rayFn s).testBit y = true := by
          rw [Nat.testBit_and, hc, hraybb, decide_eq_true hy]; rfl
        have := hbmax y (by omega)
        rw [hyinter] at this
        exact Bool.true_eq_false.mp this
    · rintro ⟨hxs, hall⟩
      have hxge : b ≤ x := by
        by_contra hgt
        have := hall b hbray (by omega)
        rw [hbocc] at this
        exact Bool.true_eq_false.mp this
      have hxb : x ∉ rayList next b := fun hc => by
        have := (hnest.mp hc).2; omega
      rw [decide_eq_true hxs, decide_eq_false hxb]; rfl

theorem mask_own_char (v own x : Nat) (hx : x < 64) :
    ((if own ≠ 0 then v &&& nnot own else v).testBit x = true ↔
      (v.testBit x = true ∧ own.testBit x = false)) := by
  by_cases h : own = 0
  · subst h; simp [Nat.zero_testBit]
  · rw [if_pos h, Nat.testBit_and]
    have hmask : (nnot own).testBit x = ! own.testBit x := by
      unfold nnot mask64
      rw [Nat.testBit_xor, Nat.testBit_two_pow_sub_one, decide_eq_true hx]
      cases own.testBit x <;> rfl
    rw [hmask]
    cases hc : v.testBit x <;> cases hc2 : own.testBit x <;> simp

theorem get_ray_zero_north : ∀ t, get_north_ray 0 t = bbOf (rayList stepNorth t) :=
  fun t => by simp [get_north_ray, northBB]

theorem get_ray_zero_south : ∀ t, get_south_ray 0 t = bbOf (rayList stepSouth t) :=
  fun t => by simp [get_south_ray, southBB]

theorem get_ray_zero_east : ∀ t, get_east_ray 0 t = bbOf (rayList stepEast t) :=
  fun t => by simp [get_east_ray, eastBB]

theorem get_ray_zero_west : ∀ t, get_west_ray 0 t = bbOf (rayList stepWest t) :=
  fun t => by simp [get_west_ray, westBB]

theorem get_ray_zero_northeast :
    ∀ t, get_northeast_ray 0 t = bbOf (rayList stepNortheast t) :=
  fun t => by simp [get_northeast_ray, northeastBB]

theorem get_ray_zero_northwest :
    ∀ t, get_northwest_ray 0 t = bbOf (rayList stepNorthwest t) :=
  fun t => by simp [get_northwest_ray, northwestBB]

theorem get_ray_zero_southeast :
    ∀ t, get_southeast_ray 0 t = bbOf (rayList stepSoutheast t) :=
  fun t => by simp [get_southeast_ray, southeastBB]

theorem get_ray_zero_southwest :
    ∀ t, get_southwest_ray 0 t = bbOf (rayList stepSouthwest t) :=
  fun t => by simp [get_southwest_ray, southwestBB]

/-- C4.  For every source square, occupancy bitboard and sliding
direction, the computed pseudo-legal rook/bishop attack set equals the
open-board ray truncated at the nearest blocker: a square `x` of a ray is
reachable iff no ray square strictly nearer to the source is occupied
(hence with no blocker the whole static ray is kept, the nearest
blocker's own square is included, every square beyond it is excluded),
and own-side occupied destinations are masked out afterwards. -/
theorem c4_sliding_attacks_ray_blocker (occ own s x : Nat)
    (hs : s ≤ 63) (hx : x < 64) :
    ((update_legal_rook_moves occ own s).testBit x = true ↔
      ((reachableF stepNorth occ s x ∨ reachableF stepEast occ s x ∨
        reachableR stepSouth occ s x ∨ reachableR stepWest occ s x) ∧
        own.testBit x = false)) ∧
    ((update_legal_bishop_moves occ own s).testBit x = true ↔
      ((reachableF stepNorthwest occ s x ∨ reachableF stepNortheast occ s x ∨
        reachableR stepSouthwest occ s x ∨ reachableR stepSoutheast occ s x) ∧
        own.testBit x = false)) := by
  have hn := forward_ray_moves_char stepNorth stepNorth_mono stepNorth_bound
    (get_north_ray 0) get_ray_zero_north occ s x
  have he := forward_ray_moves_char stepEast stepEast_mono stepEast_bound
    (get_east_ray 0) get_ray_zero_east occ s x
  have hso := reverse_ray_moves_char stepSouth stepSouth_anti
    (get_south_ray 0) get_ray_zero_south occ s x hs
  have hw := reverse_ray_moves_char stepWest stepWest_anti
    (get_west_ray 0) get_ray_zero_west occ s x hs
  have hnw := forward_ray_moves_char stepNorthwest stepNorthwest_mono
    stepNorthwest_bound (get_northwest_ray 0) get_ray_zero_northwest occ s x
  have hne := forward_ray_moves_char stepNortheast stepNortheast_mono
    stepNortheast_bound (get_northeast_ray 0) get_ray_zero_northeast occ s x
  have hsw := reverse_ray_moves_char stepSouthwest stepSouthwest_anti
    (get_southwest_ray 0) get_ray_zero_southwest occ s x hs
  have hse := reverse_ray_moves_char stepSoutheast stepSoutheast_anti
    (get_southeast_ray 0) get_ray_zero_southeast occ s x hs
  constructor
  · unfold update_legal_rook_moves
    rw [mask_own_char _ own x hx]
    simp only [Nat.testBit_lor]
    constructor
    · rintro ⟨hor, hown⟩
      refine ⟨?_, hown⟩
      rcases Bool.or_eq_true_iff.mp hor with h3 | h4
      · rcases Bool.or_eq_true_iff.mp h3 with h5 | h6
        · rcases Bool.or_eq_true_iff.mp h5 with h7 | h8
          · exact Or.inl (hn.mp h7)
          · exact Or.inr (Or.inl (he.mp h8))
        · exact Or.inr (Or.inr (Or.inl (hso.mp h6)))
      · exact Or.inr (Or.inr (Or.inr (hw.mp h4)))
    · rintro ⟨hor, hown⟩
      refine ⟨?_, hown⟩
      rcases hor with h | h | h | h
      · exact Bool.or_eq_true_iff.mpr (Or.inl (Bool.or_eq_true_iff.mpr
          (Or.inl (Bool.or_eq_true_iff.mpr (Or.inl (hn.mpr h))))))
      · exact Bool.or_eq_true_iff.mpr (Or.inl (Bool.or_eq_true_iff.mpr
          (Or.inl (Bool.or_eq_true_iff.mpr (Or.inr (he.mpr h))))))
      · exact Bool.or_eq_true_iff.mpr (Or.inl (Bool.or_eq_true_iff.mpr
          (Or.inr (hso.mpr h))))
      · exact Bool.or_eq_true_iff.mpr (Or.inr (hw.mpr h))
  · unfold update_legal_bishop_moves
    rw [mask_own_char _ own x hx]
    simp only [Nat.testBit_lor]
    constructor
    · rintro ⟨hor, hown⟩
      refine ⟨?_, hown⟩
      rcases Bool.or_eq_true_iff.mp hor with h3 | h4
      · rcases Bool.or_eq_true_iff.mp h3 with h5 | h6
        · rcases Bool.or_eq_true_iff.mp h5 with h7 | h8
          · exact Or.inl (hnw.mp h7)
          · exact Or.inr (Or.inl (hne.mp h8))
        · exact Or.inr (Or.inr (Or.inl (hsw.mp h6)))
      · exact Or.inr (Or.inr (Or.inr (hse.mp h4)))
    · rintro ⟨hor, hown⟩
      refine ⟨?_, hown⟩
      rcases hor with h | h | h | h
      · exact Bool.or_eq_true_iff.mpr (Or.inl (Bool.or_eq_true_iff.mpr
          (Or.inl (Bool.or_eq_true_iff.mpr (Or.inl (hnw.mpr h))))))
      · exact Bool.or_eq_true_iff.mpr (Or.inl (Bool.or_eq_true_iff.mpr
          (Or.inl (Bool.or_eq_true_iff.mpr (Or.inr (hne.mpr h))))))
      · exact Bool.or_eq_true_iff.mpr (Or.inl (Bool.or_eq_true_iff.mpr
          (Or.inr (hsw.mpr h))))
      · exact Bool.or_eq_true_iff.mpr (Or.inr (hse.mpr h))

mutual
/-- The instrumented evaluator computes the same score as `minimaxAB`. -/
theorem minimaxInstr_fst (mL : Nat) (t : GT) (level : Nat) (isMax : Bool)
    (alpha beta : Score) :
    (minimaxInstr mL t level isMax alpha beta).fst =
      minimaxAB mL t level isMax alpha beta := by
  cases t with
  | mk cs =>
    unfold minimaxInstr minimaxAB
    split_ifs with h1 h2 h3
    · rfl
    · rfl
    · exact goMaxInstr_fst mL cs (level + 1) Score.negInf alpha beta
    · exact goMinInstr_fst mL cs (level + 1) Score.posInf alpha beta

theorem goMaxInstr_fst (mL : Nat) (cs : List GChild) (lv : Nat)
    (maxScore alpha beta : Score) :
    (goMaxInstr mL cs lv maxScore alpha beta).fst =
      goMaxAB mL cs lv maxScore alpha beta := by
  match cs with
  | [] => rfl
  | GChild.quits _ :: _ => rfl
  | GChild.noMoves _ :: _ => rfl
  | GChild.sub v t :: rest =>
    unfold goMaxInstr goMaxAB
    match hv : minimaxInstr mL t lv false alpha beta with
    | (none, c) =>
      have hch := minimaxInstr_fst mL t lv false alpha beta
      rw [hv] at hch
      rw [← hch]
    | (some r, c) =>
      have hch := minimaxInstr_fst mL t lv false alpha beta
      rw [hv] at hch
      rw [← hch]
      simp only []
      split_ifs
      · rfl
      · have hr2 := goMaxInstr_fst mL rest lv
          (smax maxScore (addI v r)) (smax alpha (addI v r)) beta
        match hrec : goMaxInstr mL rest lv
            (smax maxScore (addI v r)) (smax alpha (addI v r)) beta with
        | (res, c2) =>
          rw [hrec] at hr2
          exact hr2

theorem goMinInstr_fst (mL : Nat) (cs : List GChild) (lv : Nat)
    (minScore alpha beta : Score) :
    (goMinInstr mL cs lv minScore alpha beta).fst =
      goMinAB mL cs lv minScore alpha beta := by
  match cs with
  | [] => rfl
  | GChild.quits _ :: _ => rfl
  | GChild.noMoves _ :: _ => rfl
  | GChild.sub v t :: rest =>
    unfold goMinInstr goMinAB
    match hv : minimaxInstr mL t lv true alpha beta with
    | (none, c) =>
      have hch := minimaxInstr_fst mL t lv true alpha beta
      rw [hv] at hch
      rw [← hch]
    | (some r, c) =>
      have hch := minimaxInstr_fst mL t lv true alpha beta
      rw [hv] at hch
      rw [← hch]
      simp only []
      split_ifs
      · rfl
      · have hr2 := goMinInstr_fst mL rest lv
          (smin minScore (addI v r)) alpha (smin beta (addI v r))
        match hrec : goMinInstr mL rest lv
            (smin minScore (addI v r)) alpha (smin beta (addI v r)) with
        | (res, c2) =>
          rw [hrec] at hr2
          exact hr2
end

mutual
/-- If no cutoff fires during the traversal, the pruned search computes
the full-minimax score. -/
theorem minimaxInstr_cutfree (mL : Nat) (t : GT) (level : Nat) (isMax : Bool)
    (alpha beta : Score)
    (hc : (minimaxInstr mL t level isMax alpha beta).snd = false) :
    minimaxFull mL t level isMax =
      (minimaxInstr mL t level isMax alpha beta).fst := by
  cases t with
  | mk cs =>
    unfold minimaxInstr at hc
    unfold minimaxFull minimaxInstr
    split_ifs at hc ⊢ with h1 h2 h3
    · rfl
    · rfl
    · exact goMaxInstr_cutfree mL cs (level + 1) Score.negInf alpha beta hc
    · exact goMinInstr_cutfree mL cs (level + 1) Score.posInf alpha beta hc

theorem goMaxInstr_cutfree (mL : Nat) (cs : List GChild) (lv : Nat)
    (maxScore alpha beta : Score)
    (hc : (goMaxInstr mL cs lv maxScore alpha beta).snd = false) :
    goMaxFull mL cs lv maxScore =
      (goMaxInstr mL cs lv maxScore alpha beta).fst := by
  match cs with
  | [] => rfl
  | GChild.quits _ :: _ => rfl
  | GChild.noMoves _ :: _ => rfl
  | GChild.sub v t :: rest =>
    unfold goMaxInstr at hc ⊢
    unfold goMaxFull
    match hv : minimaxInstr mL t lv false alpha beta with
    | (none, c) =>
      rw [hv] at hc
      simp only [] at hc ⊢
      have hful := minimaxInstr_cutfree mL t lv false alpha beta
        (by rw [hv]; exact hc)
      rw [hv] at hful
      simp only [] at hful
      rw [hful]
    | (some r, c) =>
      rw [hv] at hc
      simp only [] at hc ⊢
      split_ifs at hc ⊢ with hcut
      simp only [Bool.or_eq_false_iff] at hc
      have hful := minimaxInstr_cutfree mL t lv false alpha beta
        (by rw [hv]; exact hc.1)
      rw [hv] at hful
      simp only [] at hful
      rw [hful]
      simp only []
      exact goMaxInstr_cutfree mL rest lv (smax maxScore (addI v r))
        (smax alpha (addI v r)) beta hc.2

theorem goMinInstr_cutfree (mL : Nat) (cs : List GChild) (lv : Nat)
    (minScore alpha beta : Score)
    (hc : (goMinInstr mL cs lv minScore alpha beta).snd = false) :
    goMinFull mL cs lv minScore =
      (goMinInstr mL cs lv minScore alpha beta).fst := by
  match cs with
  | [] => rfl
  | GChild.quits _ :: _ => rfl
  | GChild.noMoves _ :: _ => rfl
  | GChild.sub v t :: rest =>
    unfold goMinInstr at hc ⊢
    unfold goMinFull
    match hv : minimaxInstr mL t lv true alpha beta with
    | (none, c) =>
      rw [hv] at hc
      simp only [] at hc ⊢
      have hful := minimaxInstr_cutfree mL t lv true alpha beta
        (by rw [hv]; exact hc)
      rw [hv] at hful
      simp only [] at hful
      rw [hful]
    | (some r, c) =>
      rw [hv] at hc
      simp only [] at hc ⊢
      split_ifs at hc ⊢ with hcut
      simp only [Bool.or_eq_false_iff] at hc
      have hful := minimaxInstr_cutfree mL t lv true alpha beta
        (by rw [hv]; exact hc.1)
      rw [hv] at hful
      simp only [] at hful
      rw [hful]
      simp only []
      exact goMinInstr_cutfree mL rest lv (smin minScore (addI v r))
        alpha (smin beta (addI v r)) hc.2
end

/-- C9, counterexample.  The claim "pruning changes only the work done,
never the returned score" is false for this code: `minimax` passes its
alpha/beta bounds to child calls unshifted while adding the per-move
value to the child's result afterwards, so a cutoff can fire against
mistranslated bounds.  On `c9tree` the pruned search returns 13 where
full minimax returns 5 (the minimizer under the value-10 move is cut off
after its first reply). -/
theorem c9_counterexample_pruning_changes_score :
    minimaxAB 3 c9tree 0 true Score.negInf Score.posInf = some (Score.fin 13) ∧
    minimaxFull 3 c9tree 0 true = some (Score.fin 5) ∧
    some (Score.fin 13) ≠ some (Score.fin 5) := by
  refine ⟨by decide, by decide, by decide⟩

/-- C9 (amended).  For every fixed shallow depth and every explored move
tree, if the `beta <= alpha` cutoff never fires during the alpha-beta
search then the pruned search returns exactly the full-minimax score;
when a cutoff fires the scores can differ, because the code hands its
alpha/beta bounds to children without adjusting them by the per-move
score it later adds. -/
theorem c9_alphabeta_equals_full_when_no_cutoff (mL : Nat) (t : GT)
    (h : (minimaxInstr mL t 0 true Score.negInf Score.posInf).snd = false) :
    minimaxAB mL t 0 true Score.negInf Score.posInf = minimaxFull mL t 0 true := by
  rw [← minimaxInstr_fst]
  exact (minimaxInstr_cutfree mL t 0 true Score.negInf Score.posInf h).symm

theorem c9_alphabeta_equals_full_when_no_cutoff_witness :
    (minimaxInstr 3 c9treeNoCut 0 true Score.negInf Score.posInf).snd = false ∧
    minimaxAB 3 c9treeNoCut 0 true Score.negInf Score.posInf =
      minimaxFull 3 c9treeNoCut 0 true :=
  ⟨by decide, c9_alphabeta_equals_full_when_no_cutoff 3 c9treeNoCut (by decide)⟩

/-- C8, counterexample.  At a minimizing node whose explored move leads to
a position with no legal reply, `minimax` returns `MINUS_INFINITY`
outright — the code consults no in-check information at the
`if not next_moves` test (run.py lines 803-806), so a stalemate is never
scored zero; at a maximizing node the same situation runs `quit()`
(lines 697-700) and returns no score at all. -/
theorem c8_counterexample_no_reply_score :
    minimaxAB 3 (GT.mk [GChild.noMoves 0]) 0 false Score.negInf Score.posInf =
      some Score.negInf ∧
    minimaxAB 3 (GT.mk [GChild.noMoves 0]) 0 true Score.negInf Score.posInf =
      none ∧
    some Score.negInf ≠ some (Score.fin 0) := by
  refine ⟨by decide, by decide, by decide⟩

/-- C8 (amended).  At every search node below the depth cap whose first
explored move meets the `not next_moves` test (the side to move has no
legal reply), the minimizing branch of `minimax` returns the minimal
score `MINUS_INFINITY` regardless of whether that side is in check, and
the maximizing branch terminates the process (embedded `none`) instead of
returning a score; stalemate is never scored zero here. -/
theorem c8_no_legal_reply_branch (mL lv : Nat) (v : Int) (rest : List GChild)
    (alpha beta : Score) (h : lv + 1 < mL) :
    minimaxAB mL (GT.mk (GChild.noMoves v :: rest)) lv false alpha beta =
      some Score.negInf ∧
    minimaxAB mL (GT.mk (GChild.noMoves v :: rest)) lv true alpha beta =
      none := by
  constructor <;>
    (unfold minimaxAB; rw [if_neg (by omega), if_neg (by omega)]; rfl)

theorem c8_no_legal_reply_branch_witness :
    0 + 1 < 3 ∧
    (minimaxAB 3 (GT.mk [GChild.noMoves 7]) 0 false Score.negInf Score.posInf =
      some Score.negInf ∧
    minimaxAB 3 (GT.mk [GChild.noMoves 7]) 0 true Score.negInf Score.posInf =
      none) :=
  ⟨by decide, c8_no_legal_reply_branch 3 0 7 [] Score.negInf Score.posInf (by decide)⟩

-- ---------------------------------------------------------------------
-- The halfmove clock through the make pipeline.
-- ---------------------------------------------------------------------

theorem remove_opponent_piece_clock (p : Position) (t : Nat) (d : Diff)
    (p' : Position) (d' : Diff)
    (h : remove_opponent_piece_from_square p t d = some (p', d')) :
    p'.halfmove_clock = p.halfmove_clock := by
  unfold remove_opponent_piece_from_square at h
  split at h
  · split at h
    · simp only [Option.some.injEq, Prod.mk.injEq] at h
      rw [← h.1]
    · split at h
      · simp only [Option.some.injEq, Prod.mk.injEq] at h
        rw [← h.1]
      · simp at h
  · simp at h

theorem capture_step_clock_zero (p : Position) (d : Diff) (m : Move)
    (p' : Position) (d' : Diff) (hc : m.is_capture = true)
    (h : capture_step p d m = some (p', d')) : p'.halfmove_clock = 0 := by
  unfold capture_step at h
  rw [hc] at h
  simp only [if_true] at h
  have := remove_opponent_piece_clock _ _ _ _ _ h
  simpa using this

theorem capture_step_clock_pres (p : Position) (d : Diff) (m : Move)
    (p' : Position) (d' : Diff)
    (h : capture_step p d m = some (p', d')) :
    p'.halfmove_clock = 0 ∨ p'.halfmove_clock = p.halfmove_clock := by
  unfold capture_step at h
  split at h
  · have := remove_opponent_piece_clock _ _ _ _ _ h
    left; simpa using this
  · simp only [Option.some.injEq, Prod.mk.injEq] at h
    right; rw [← h.1]

theorem ep_capture_step_clock (p : Position) (d : Diff) (m : Move)
    (p' : Position) (d' : Diff)
    (h : ep_capture_step p d m = some (p', d')) :
    p'.halfmove_clock = p.halfmove_clock := by
  unfold ep_capture_step at h
  split at h
  · split at h
    · exact remove_opponent_piece_clock _ _ _ _ _ h
    · exact remove_opponent_piece_clock _ _ _ _ _ h
  · simp only [Option.some.injEq, Prod.mk.injEq] at h
    rw [← h.1]

theorem ep_flag_step_clock (p : Position) (d : Diff) :
    (ep_flag_step p d).1.halfmove_clock = p.halfmove_clock := rfl

theorem pawn_clock_step_zero (p : Position) (d : Diff) (m : Move)
    (hp : m.piece_type_number = Piece.wP ∨ m.piece_type_number = Piece.bP) :
    (pawn_clock_step p d m).1.halfmove_clock = 0 := by
  unfold pawn_clock_step
  rw [if_pos hp]

theorem pawn_clock_step_pres (p : Position) (d : Diff) (m : Move)
    (hp : ¬ (m.piece_type_number = Piece.wP ∨ m.piece_type_number = Piece.bP)) :
    (pawn_clock_step p d m).1.halfmove_clock = p.halfmove_clock := by
  unfold pawn_clock_step
  rw [if_neg hp]

theorem relocate_step_clock (p : Position) (d : Diff) (m : Move)
    (p' : Position) (d' : Diff)
    (h : relocate_step p d m = some (p', d')) :
    p'.halfmove_clock = p.halfmove_clock := by
  unfold relocate_step at h
  split at h
  · split at h
    · simp only [Option.some.injEq, Prod.mk.injEq] at h
      rw [← h.1]
    · simp at h
  · simp at h

theorem move_rooks_clock (p : Position) (d : Diff) (m : Move)
    (p' : Position) (d' : Diff)
    (h : move_rooks_for_castling p d m = some (p', d')) :
    p'.halfmove_clock = p.halfmove_clock := by
  unfold move_rooks_for_castling at h
  repeat' split at h
  all_goals
    first
      | (simp at h; done)
      | (simp at h; rcases h with ⟨-, -, -, -, -, hP, -⟩; rw [← hP])

theorem promotion_castling_step_clock (p : Position) (d : Diff) (m : Move)
    (p' : Position) (d' : Diff)
    (h : promotion_castling_step p d m = some (p', d')) :
    p'.halfmove_clock = p.halfmove_clock := by
  unfold promotion_castling_step at h
  split at h
  · simp at h
  · split at h
    · exact move_rooks_clock _ _ _ _ _ h
    · simp only [Option.some.injEq, Prod.mk.injEq] at h
      rw [← h.1]

theorem counters_step_clock (p : Position) (d : Diff) :
    (counters_step p d).1.halfmove_clock = p.halfmove_clock + 1 := rfl

theorem adjust_castling_rights_clock (p : Position) (d : Diff) (m : Move) :
    (adjust_castling_rights p d m).1.halfmove_clock = p.halfmove_clock := by
  unfold adjust_castling_rights
  split
  · rfl
  · rfl

theorem rights_step_clock (p : Position) (d : Diff) (m : Move) :
    (rights_step p d m).1.halfmove_clock = p.halfmove_clock := by
  unfold rights_step
  dsimp only
  split
  · exact adjust_castling_rights_clock p d m
  · rfl

theorem ep_clear_step_clock (p : Position) (d : Diff) (m : Move) :
    (ep_clear_step p d m).1.halfmove_clock = p.halfmove_clock := by
  unfold ep_clear_step
  split_ifs <;> rfl

theorem update_position_bitboards_clock (p : Position) (d : Diff) :
    (update_position_bitboards p d).1.halfmove_clock = p.halfmove_clock := rfl

theorem evaluate_king_check_clock (p : Position) :
    (evaluate_king_check p).halfmove_clock = p.halfmove_clock := rfl

theorem update_legal_pawn_moves_clock (q : Position) (sq : Nat) (r : Rival)
    (q' : Position) (h : update_legal_pawn_moves q sq r = some q') :
    q'.halfmove_clock = q.halfmove_clock := by
  unfold update_legal_pawn_moves at h
  split at h
  · split at h
    · simp only [Option.some.injEq] at h
      rw [← h]
    · simp only [Option.some.injEq] at h
      rw [← h]
  · simp at h

theorem update_legal_knight_moves_clock (q : Position) (sq : Nat) (r : Rival)
    (q' : Position) (h : update_legal_knight_moves q sq r = some q') :
    q'.halfmove_clock = q.halfmove_clock := by
  unfold update_legal_knight_moves at h
  split at h
  · split at h
    · simp only [Option.some.injEq] at h
      rw [← h]
    · simp only [Option.some.injEq] at h
      rw [← h]
  · simp at h

theorem update_legal_king_moves_clock (q : Position) (sq : Nat) (r : Rival)
    (q' : Position) (h : update_legal_king_moves q sq r = some q') :
    q'.halfmove_clock = q.halfmove_clock := by
  unfold update_legal_king_moves at h
  split at h
  · split at h
    · simp only [Option.some.injEq] at h
      rw [← h]
    · simp only [Option.some.injEq] at h
      rw [← h]
  · simp at h

theorem update_legal_rook_moves_on_clock (q : Position) (sq : Nat) (r : Rival) :
    (update_legal_rook_moves_on q sq r).halfmove_clock = q.halfmove_clock := by
  unfold update_legal_rook_moves_on
  cases r <;> rfl

theorem update_legal_bishop_moves_on_clock (q : Position) (sq : Nat)
    (r : Rival) :
    (update_legal_bishop_moves_on q sq r).halfmove_clock = q.halfmove_clock := by
  unfold update_legal_bishop_moves_on
  cases r <;> rfl

theorem update_legal_queen_moves_on_clock (q : Position) (sq : Nat)
    (r : Rival) :
    (update_legal_queen_moves_on q sq r).halfmove_clock = q.halfmove_clock := by
  unfold update_legal_queen_moves_on
  cases r <;> rfl

theorem piece_updater_clock (piece : Piece) (q : Position) (sq : Nat)
    (q' : Position) (h : piece_updater piece q sq = some q') :
    q'.halfmove_clock = q.halfmove_clock := by
  cases piece <;> simp only [piece_updater] at h
  case wP => exact update_legal_pawn_moves_clock _ _ _ _ h
  case bP => exact update_legal_pawn_moves_clock _ _ _ _ h
  case wN => exact update_legal_knight_moves_clock _ _ _ _ h
  case bN => exact update_legal_knight_moves_clock _ _ _ _ h
  case wK => exact update_legal_king_moves_clock _ _ _ _ h
  case bK => exact update_legal_king_moves_clock _ _ _ _ h
  case wR =>
    injection h with h1
    rw [← h1]
    exact update_legal_rook_moves_on_clock q sq _
  case bR =>
    injection h with h1
    rw [← h1]
    exact update_legal_rook_moves_on_clock q sq _
  case wB =>
    injection h with h1
    rw [← h1]
    exact update_legal_bishop_moves_on_clock q sq _
  case bB =>
    injection h with h1
    rw [← h1]
    exact update_legal_bishop_moves_on_clock q sq _
  case wQ =>
    injection h with h1
    rw [← h1]
    exact update_legal_queen_moves_on_clock q sq _
  case bQ =>
    injection h with h1
    rw [← h1]
    exact update_legal_queen_moves_on_clock q sq _

theorem foldPosM_clock (f : Position → Nat → Option Position)
    (hf : ∀ q sq q', f q sq = some q' → q'.halfmove_clock = q.halfmove_clock) :
    ∀ (l : List Nat) (p p' : Position), foldPosM p l f = some p' →
      p'.halfmove_clock = p.halfmove_clock := by
  intro l
  induction l with
  | nil =>
    intro p p' h
    unfold foldPosM at h
    simp only [Option.some.injEq] at h
    rw [← h]
  | cons sq rest ih =>
    intro p p' h
    unfold foldPosM at h
    rcases hq : f p sq with _ | q
    · rw [hq] at h; simp at h
    · rw [hq] at h
      have h' : foldPosM q rest f = some p' := h
      rw [ih q p' h', hf p sq q hq]

theorem run_updates_clock : ∀ (l : List Piece) (p p' : Position),
    run_updates p l = some p' → p'.halfmove_clock = p.halfmove_clock := by
  intro l
  induction l with
  | nil =>
    intro p p' h
    unfold run_updates at h
    simp only [Option.some.injEq] at h
    rw [← h]
  | cons piece rest ih =>
    intro p p' h
    unfold run_updates at h
    simp only [Option.bind_eq_bind, Option.bind_eq_some] at h
    obtain ⟨q, hq, hrest⟩ := h
    rw [ih q p' hrest,
      foldPosM_clock (piece_updater piece) (piece_updater_clock piece)
        _ p q hq]

theorem update_attack_bitboards_clock (p : Position) (d : Diff)
    (p' : Position) (d' : Diff)
    (h : update_attack_bitboards p d = some (p', d')) :
    p'.halfmove_clock = p.halfmove_clock := by
  unfold update_attack_bitboards at h
  simp only [Option.bind_eq_bind, Option.bind_eq_some, Option.pure_def,
    Option.some.injEq, Prod.mk.injEq] at h
  obtain ⟨q1, h1, q2, h2, hP, hD⟩ := h
  rw [← hP, run_updates_clock _ _ _ h2, run_updates_clock _ _ _ h1]
  rfl

/-- After the capture and pawn-clock stages, a capture or pawn move has
zeroed the clock; the remaining stages then add exactly one. -/
theorem apply_move_stages_clock (p : Position) (d : Diff) (m : Move)
    (p' : Position) (d' : Diff)
    (hcp : m.is_capture = true ∨ m.piece_type_number = Piece.wP ∨
      m.piece_type_number = Piece.bP)
    (h : apply_move_stages p d m = some (p', d')) :
    p'.halfmove_clock = 1 := by
  unfold apply_move_stages at h
  simp only [Option.bind_eq_bind, Option.bind_eq_some, Option.pure_def,
    Option.some.injEq, Prod.mk.injEq] at h
  obtain ⟨⟨p1, d1⟩, h1, ⟨p2, d2⟩, h2, ⟨p5, d5⟩, h5, ⟨p6, d6⟩, h6,
    ⟨p11, d11⟩, h11, hP, hD⟩ := h
  have hc4 : (pawn_clock_step (ep_flag_step p2 d2).1 (ep_flag_step p2 d2).2
      m).1.halfmove_clock = 0 := by
    by_cases hp : m.piece_type_number = Piece.wP ∨ m.piece_type_number = Piece.bP
    · exact pawn_clock_step_zero _ _ _ hp
    · have hc : m.is_capture = true := by tauto
      have e1 : p1.halfmove_clock = 0 := capture_step_clock_zero _ _ _ _ _ hc h1
      have e2 : p2.halfmove_clock = p1.halfmove_clock :=
        ep_capture_step_clock _ _ _ _ _ h2
      have e3 := ep_flag_step_clock p2 d2
      have e4 := pawn_clock_step_pres (ep_flag_step p2 d2).1
        (ep_flag_step p2 d2).2 m hp
      omega
  have e5 : p5.halfmove_clock = 0 := by
    rw [relocate_step_clock _ _ _ _ _ h5, hc4]
  have e6 : p6.halfmove_clock = 0 := by
    rw [promotion_castling_step_clock _ _ _ _ _ h6, e5]
  have e10 : (update_position_bitboards
      (ep_clear_step (rights_step (counters_step p6 d6).1
        (counters_step p6 d6).2 m).1
        (rights_step (counters_step p6 d6).1 (counters_step p6 d6).2 m).2
        m).1
      (ep_clear_step (rights_step (counters_step p6 d6).1
        (counters_step p6 d6).2 m).1
        (rights_step (counters_step p6 d6).1 (counters_step p6 d6).2 m).2
        m).2).1.halfmove_clock = 1 := by
    have g1 := counters_step_clock p6 d6
    have g2 := rights_step_clock (counters_step p6 d6).1 (counters_step p6 d6).2 m
    have g3 := ep_clear_step_clock (rights_step (counters_step p6 d6).1
      (counters_step p6 d6).2 m).1
      (rights_step (counters_step p6 d6).1 (counters_step p6 d6).2 m).2 m
    have g4 := update_position_bitboards_clock
      (ep_clear_step (rights_step (counters_step p6 d6).1
        (counters_step p6 d6).2 m).1
        (rights_step (counters_step p6 d6).1 (counters_step p6 d6).2 m).2
        m).1
      (ep_clear_step (rights_step (counters_step p6 d6).1
        (counters_step p6 d6).2 m).1
        (rights_step (counters_step p6 d6).1 (counters_step p6 d6).2 m).2
        m).2
    omega
  have e11 : p11.halfmove_clock = 1 := by
    have hu := update_attack_bitboards_clock _ _ _ _ h11
    rw [hu]
    exact e10
  rw [← hP, evaluate_king_check_clock, e11]

/-- C6.  The halfmove clock is reset by a capture or pawn move — but the
unconditional increment later in the same make leaves it at 1, not 0,
when the make returns a non-illegal result. -/
theorem c6_capture_or_pawn_clock_resets_to_one (p : Position) (m : Move)
    (mr : Option MoveResult) (d : Diff) (p' : Position) (m' : Move)
    (h : update_wakegame_position p m = some (mr, d, p', m'))
    (hmr : mr = none)
    (hcp : m'.is_capture = true ∨ m'.piece_type_number = Piece.wP ∨
      m'.piece_type_number = Piece.bP) :
    p'.halfmove_clock = 1 := by
  unfold update_wakegame_position at h
  simp only [Option.bind_eq_bind, Option.bind_eq_some, Option.pure_def,
    Option.some.injEq, Prod.mk.injEq] at h
  obtain ⟨⟨legal, d1, p1, m1⟩, hleg, hrest⟩ := h
  cases legal with
  | false =>
    subst hmr
    simp at hrest
  | true =>
    rw [if_neg (by simp)] at hrest
    simp only [Option.bind_eq_bind, Option.bind_eq_some, Option.pure_def,
      Option.some.injEq, Prod.mk.injEq] at hrest
    obtain ⟨⟨p2, d2⟩, hs, _, _, hp2, hm1⟩ := hrest
    subst hm1
    subst hp2
    exact apply_move_stages_clock p1 d1 m1 p2 d2 hcp hs

/-- C6 counterexample: the very first pawn move from the start position
leaves the halfmove clock at 1, where the claim demands 0. -/
theorem c6_counterexample_clock_one_after_pawn_move :
    (update_wakegame_position startPosition (mkMove Piece.wP 12 28)).map
        (fun r => (r.1, r.2.2.2.piece_type_number, r.2.2.1.halfmove_clock)) =
      some (none, Piece.wP, 1) ∧ (1 : Nat) ≠ 0 :=
  ⟨by decide, by decide⟩

theorem c6_capture_or_pawn_clock_resets_to_one_witness :
    ∃ mr d p' m',
      update_wakegame_position startPosition (mkMove Piece.wP 12 28) =
        some (mr, d, p', m') ∧ p'.halfmove_clock = 1 := by
  rcases hrun : update_wakegame_position startPosition (mkMove Piece.wP 12 28)
      with _ | ⟨mr, d, p', m'⟩
  · exact absurd hrun (by decide)
  · have hproj : (update_wakegame_position startPosition
        (mkMove Piece.wP 12 28)).map
          (fun r => (r.1, r.2.2.2.piece_type_number)) =
        some (none, Piece.wP) := by decide
    rw [hrun] at hproj
    simp only [Option.map_some', Option.some.injEq, Prod.mk.injEq] at hproj
    obtain ⟨hmr, hpiece⟩ := hproj
    exact ⟨mr, d, p', m', rfl,
      c6_capture_or_pawn_clock_resets_to_one _ _ _ _ _ _ hrun hmr
        (Or.inr (Or.inl hpiece))⟩

-- ---------------------------------------------------------------------
-- Illegal moves leave the position untouched (C3).
-- ---------------------------------------------------------------------

/-- When the legality check says no, it has recorded nothing and has not
touched the position: the en-passant mutations of the pawn branch only
happen on the legal path. -/
theorem is_legal_move_false_frame (p : Position) (m : Move) (d : Diff)
    (p' : Position) (m' : Move)
    (h : is_legal_move p m = some (false, d, p', m')) :
    d = emptyDiff ∧ p' = p := by
  unfold is_legal_move at h
  set m1 := if is_capture p m then { m with is_capture := true } else m with hm1
  dsimp only at h
  cases hpc : m1.piece_type_number <;> rw [hpc] at h <;> simp only [] at h
  case wB | bB | wR | bR | wN | bN | wQ | bQ =>
    simp only [Option.some.injEq, Prod.mk.injEq] at h
    exact ⟨h.2.1.symm, h.2.2.1.symm⟩
  case wK | bK =>
    split at h
    · simp only [Option.some.injEq, Prod.mk.injEq] at h
      exact ⟨h.2.1.symm, h.2.2.1.symm⟩
    · simp at h
  case wP | bP =>
    simp only [Option.bind_eq_bind, Option.bind_eq_some, Option.pure_def] at h
    obtain ⟨legal, hlp, h⟩ := h
    cases legal with
    | false =>
      rw [if_pos (by simp)] at h
      simp only [Option.some.injEq, Prod.mk.injEq] at h
      exact ⟨h.2.1.symm, h.2.2.1.symm⟩
    | true =>
      rw [if_neg (by simp)] at h
      repeat' split at h
      all_goals simp at h

/-- C3.  A move that fails the legality check comes back from
`wake_makemove` as an illegal-move result (no exception), with an empty
diff and the position exactly as it was. -/
theorem c3_illegal_move_no_mutation (p : Position) (m : Move) (d : Diff)
    (p' : Position) (m' : Move)
    (h : is_legal_move p m = some (false, d, p', m')) :
    wake_makemove p m = some (make_illegal_move_result p, emptyDiff, p) := by
  obtain ⟨hd, hp⟩ := is_legal_move_false_frame p m d p' m' h
  rw [hd, hp] at h
  have h1 : update_wakegame_position p m =
      some (some (make_illegal_move_result p), emptyDiff, p, m') := by
    unfold update_wakegame_position
    rw [h]
    rfl
  unfold wake_makemove
  rw [h1]
  rfl

theorem c3_illegal_move_no_mutation_witness :
    wake_makemove startPosition (mkMove Piece.wR 0 16) =
      some (make_illegal_move_result startPosition, emptyDiff, startPosition) :=
  c3_illegal_move_no_mutation startPosition (mkMove Piece.wR 0 16) emptyDiff
    startPosition (mkMove Piece.wR 0 16) (by decide)

-- ---------------------------------------------------------------------
-- Concrete runs: the make/unmake round trip (C1), the
-- piece-map/mailbox invariant (C2), the start-position generator (C7).
-- ---------------------------------------------------------------------

/-- C1.  One legal pawn move from the start position and its recorded
diff: replaying the diff restores every field except
`computer_pawn_moves`, which `update_attack_bitboards` recorded from
`player_pawn_moves` (the typo), so undo plants white's pawn-move board
(72744894464) where 0 stood — the round trip is not the identity. -/
theorem c1_undo_does_not_restore_computer_pawn_moves :
    (wake_makemove startPosition (mkMove Piece.wP 12 28)).map
        (fun r => (r.1.is_illegal_move,
          (undo_changes r.2.2 r.2.1).computer_pawn_moves,
          startPosition.computer_pawn_moves)) = some (false, 72744894464, 0) ∧
      (72744894464 : Nat) ≠ 0 :=
  ⟨by decide, by decide⟩

/-- C2.  After three moves the engine accepts as legal, square 24 (a4)
sits in two piece sets at once (white queen and white pawn) while the
mailbox names only the pawn — the piece-set/mailbox consistency
invariant is broken in a reachable state. -/
theorem c2_piece_map_mailbox_desync :
    c2_move_sequence.map (fun p =>
      (p.pieceMap.wQ.testBit 24, p.pieceMap.wP.testBit 24,
        p.mailbox.getD 24 none)) = some (true, true, some Piece.wP) := by
  decide

/-- C7.  On the freshly constructed start position every attack and
pawn-move bitboard is zero (the constructor never computes them), so
`all_pawn_moves` hits its `quit()` branch and `all_legal_moves_list`
never returns a list — let alone one of 20 moves. -/
theorem c7_start_position_move_generator_returns_nothing :
    all_legal_moves_list startPosition Rival.player = none ∧
      startPosition.player_pawn_attacks ||| startPosition.player_pawn_moves
        = 0 :=
  ⟨by decide, by decide⟩

-- ---------------------------------------------------------------------
-- The bitscans (C5, C10).
-- ---------------------------------------------------------------------

/-- C5 counterexample: the scanning loop starts at index 1 and never
examines bit 0.  Bitboard 3 has least set bit 0, yet the scan returns
1; on bitboard 1 the loop finds nothing and never terminates. -/
theorem c5_counterexample_bit_zero_missed :
    Nat.testBit 3 0 = true ∧ bitscan_forward 3 = some 1 ∧
      bitscan_forward 1 = none := by
  decide

/-- C5 (amended).  For a nonzero 64-bit bitboard whose bit 0 is clear,
`bitscan_forward` terminates and returns the index of the least
significant set bit (necessarily in 1..63).  The original claim's
range 0..63 fails: bit 0 is never examined. -/
theorem c5_bitscan_forward_least_set_bit (bb : Nat) (hlt : bb < 2 ^ 64)
    (hne : bb ≠ 0) (h0 : bb.testBit 0 = false) :
    ∃ i, bitscan_forward bb = some i ∧ 1 ≤ i ∧ i ≤ 63 ∧
      bb.testBit i = true ∧ ∀ j, j < i → bb.testBit j = false :=
  bitscan_forward_least bb hlt hne h0

theorem c5_bitscan_forward_least_set_bit_witness :
    ∃ i, bitscan_forward 8 = some i ∧ 1 ≤ i ∧ i ≤ 63 ∧
      Nat.testBit 8 i = true ∧ ∀ j, j < i → Nat.testBit 8 j = false :=
  c5_bitscan_forward_least_set_bit 8 (by decide) (by decide) (by decide)

/-- C10.  `bitscan_reverse` raises (returns no value) exactly on the
zero bitboard; on any nonzero 64-bit bitboard it returns the index of
the most significant set bit. -/
theorem c10_bitscan_reverse_msb_and_raise (bb : Nat) (hlt : bb < 2 ^ 64) :
    (bitscan_reverse bb = none ↔ bb = 0) ∧
    (bb ≠ 0 → ∃ k, bitscan_reverse bb = some k ∧ k ≤ 63 ∧
      bb.testBit k = true ∧ ∀ j, k < j → bb.testBit j = false) := by
  refine ⟨bitscan_reverse_none_iff bb, fun h0 => ?_⟩
  obtain ⟨k, hk, hk63, hlo, hhi⟩ := bitscan_reverse_msb bb h0 hlt
  obtain ⟨hbit, hgt⟩ := msb_greatest bb k hlo hhi
  exact ⟨k, hk, hk63, hbit, hgt⟩

theorem c10_bitscan_reverse_msb_and_raise_witness :
    (bitscan_reverse 5 = none ↔ (5 : Nat) = 0) ∧
    ((5 : Nat) ≠ 0 → ∃ k, bitscan_reverse 5 = some k ∧ k ≤ 63 ∧
      Nat.testBit 5 k = true ∧ ∀ j, k < j → Nat.testBit 5 j = false) :=
  c10_bitscan_reverse_msb_and_raise 5 (by decide)

theorem c4_sliding_attacks_ray_blocker_witness :
    ((update_legal_rook_moves (1 <<< 16) 0 8).testBit 16 = true ↔
      ((reachableF stepNorth (1 <<< 16) 8 16 ∨
        reachableF stepEast (1 <<< 16) 8 16 ∨
        reachableR stepSouth (1 <<< 16) 8 16 ∨
        reachableR stepWest (1 <<< 16) 8 16) ∧
        (0 : Nat).testBit 16 = false)) ∧
    ((update_legal_bishop_moves (1 <<< 16) 0 8).testBit 16 = true ↔
      ((reachableF stepNorthwest (1 <<< 16) 8 16 ∨
        reachableF stepNortheast (1 <<< 16) 8 16 ∨
        reachableR stepSouthwest (1 <<< 16) 8 16 ∨
        reachableR stepSoutheast (1 <<< 16) 8 16) ∧
        (0 : Nat).testBit 16 = false)) :=
  c4_sliding_attacks_ray_blocker (1 <<< 16) 0 8 16 (by decide) (by decide)

end Wake
